import Mathlib

/-!
Verification development for the Motion & Toolpath Simulation Core of a CNC
machining repository. The C++ headers under `src/core` are shallowly embedded
over exact real arithmetic (`ℝ` stands for `double`; IEEE rounding and
NaN/Inf propagation are abstracted away, so the `std::isfinite` checks of the
source are vacuously true here). Machine integers (`std::uint64_t` counters)
are embedded as `ℕ`; fallible operations return `Option`/structured errors,
mirroring the source's error values and throw sites.
-/

namespace Cnc

/-! ## Geometry kernel (src/core/common/Types.h, src/core/geometry/Transform.h) -/

/-- Embeds `cnc::Vec3` (src/core/common/Types.h): 3D vector with double
precision components. -/
@[ext]
structure Vec3 where
  x : ℝ
  y : ℝ
  z : ℝ

/-- Componentwise addition, `Vec3::operator+`. -/
def Vec3.add (a b : Vec3) : Vec3 := ⟨a.x + b.x, a.y + b.y, a.z + b.z⟩

/-- Componentwise subtraction, `Vec3::operator-`. -/
def Vec3.sub (a b : Vec3) : Vec3 := ⟨a.x - b.x, a.y - b.y, a.z - b.z⟩

/-- Scalar multiplication, `Vec3::operator*(double)`. -/
def Vec3.smul (a : Vec3) (s : ℝ) : Vec3 := ⟨a.x * s, a.y * s, a.z * s⟩

/-- Negation of a vector; the source writes `Vec3(-p.x, -p.y, -p.z)` inline
in `Transform::inverse`. -/
def Vec3.neg (a : Vec3) : Vec3 := ⟨-a.x, -a.y, -a.z⟩

/-- Squared length, `Vec3::lengthSquared`. -/
def Vec3.lengthSquared (v : Vec3) : ℝ := v.x * v.x + v.y * v.y + v.z * v.z

/-- Euclidean length, `Vec3::length` (`std::sqrt` of the squared length). -/
noncomputable def Vec3.length (v : Vec3) : ℝ := Real.sqrt v.lengthSquared

/-- Zero vector, the default-constructed `Vec3`. -/
def Vec3.zero : Vec3 := ⟨0, 0, 0⟩

theorem Vec3.lengthSquared_nonneg (v : Vec3) : 0 ≤ v.lengthSquared := by
  unfold Vec3.lengthSquared
  nlinarith [mul_self_nonneg v.x, mul_self_nonneg v.y, mul_self_nonneg v.z]

theorem Vec3.length_nonneg (v : Vec3) : 0 ≤ v.length := Real.sqrt_nonneg _

/-- Embeds `cnc::Quaternion` (src/core/geometry/Transform.h): rotation as
`(w, x, y, z)` with `w` the scalar part. -/
@[ext]
structure Quaternion where
  w : ℝ
  x : ℝ
  y : ℝ
  z : ℝ

/-- Identity quaternion, `Quaternion::identity`. -/
def Quaternion.identity : Quaternion := ⟨1, 0, 0, 0⟩

/-- Sum of squared components; the source computes this inline under the
square root in `Quaternion::magnitude`. -/
def Quaternion.magnitudeSq (q : Quaternion) : ℝ :=
  q.w * q.w + q.x * q.x + q.y * q.y + q.z * q.z

/-- Quaternion magnitude, `Quaternion::magnitude`. -/
noncomputable def Quaternion.magnitude (q : Quaternion) : ℝ :=
  Real.sqrt q.magnitudeSq

/-- Normalization, `Quaternion::normalized`: divide by the magnitude when it
is positive, otherwise return the identity. -/
noncomputable def Quaternion.normalized (q : Quaternion) : Quaternion :=
  if 0 < q.magnitude then
    ⟨q.w / q.magnitude, q.x / q.magnitude, q.y / q.magnitude, q.z / q.magnitude⟩
  else Quaternion.identity

/-- Conjugate (inverse rotation), `Quaternion::conjugate`. -/
def Quaternion.conjugate (q : Quaternion) : Quaternion := ⟨q.w, -q.x, -q.y, -q.z⟩

/-- Hamilton product, `Quaternion::operator*`. -/
def Quaternion.mul (a b : Quaternion) : Quaternion :=
  ⟨a.w * b.w - a.x * b.x - a.y * b.y - a.z * b.z,
   a.w * b.x + a.x * b.w + a.y * b.z - a.z * b.y,
   a.w * b.y - a.x * b.z + a.y * b.w + a.z * b.x,
   a.w * b.z + a.x * b.y - a.y * b.x + a.z * b.w⟩

/-- Rotation of a vector, `Quaternion::rotate`: the sandwich product
`q * (0, v) * conj(q)`, taking the vector part. -/
def Quaternion.rotate (q : Quaternion) (v : Vec3) : Vec3 :=
  let qv : Quaternion := ⟨0, v.x, v.y, v.z⟩
  let r := (q.mul qv).mul q.conjugate
  ⟨r.x, r.y, r.z⟩

/-- Four-component dot product of quaternions; the source computes it inline
in `ToolSweep::slerp` and `ToolSweep::isTranslationOnly`. -/
def Quaternion.dot (a b : Quaternion) : ℝ :=
  a.w * b.w + a.x * b.x + a.y * b.y + a.z * b.z

/-- Componentwise negation; the source writes
`Quaternion(-q2.w, -q2.x, -q2.y, -q2.z)` inline in `ToolSweep::slerp`. -/
def Quaternion.neg (q : Quaternion) : Quaternion := ⟨-q.w, -q.x, -q.y, -q.z⟩

theorem Quaternion.magnitudeSq_nonneg (q : Quaternion) : 0 ≤ q.magnitudeSq := by
  unfold Quaternion.magnitudeSq
  nlinarith [mul_self_nonneg q.w, mul_self_nonneg q.x, mul_self_nonneg q.y,
    mul_self_nonneg q.z]

theorem Quaternion.magnitudeSq_identity : Quaternion.identity.magnitudeSq = 1 := by
  simp [Quaternion.identity, Quaternion.magnitudeSq]

theorem Quaternion.magnitudeSq_conjugate (q : Quaternion) :
    q.conjugate.magnitudeSq = q.magnitudeSq := by
  simp only [Quaternion.conjugate, Quaternion.magnitudeSq]; ring

theorem Quaternion.magnitudeSq_neg (q : Quaternion) :
    q.neg.magnitudeSq = q.magnitudeSq := by
  simp only [Quaternion.neg, Quaternion.magnitudeSq]; ring

/-- Normalizing always yields a unit quaternion (magnitude squared one): the
zero quaternion normalizes to the identity, anything else is divided by its
magnitude. -/
theorem Quaternion.magnitudeSq_normalized (q : Quaternion) :
    q.normalized.magnitudeSq = 1 := by
  unfold Quaternion.normalized
  by_cases h : 0 < q.magnitude
  · have hmm : q.magnitude * q.magnitude = q.magnitudeSq :=
      Real.mul_self_sqrt q.magnitudeSq_nonneg
    unfold Quaternion.magnitudeSq at hmm
    have hne : q.magnitude ≠ 0 := ne_of_gt h
    simp only [if_pos h, Quaternion.magnitudeSq]
    field_simp
    linear_combination -hmm
  · simp only [if_neg h]
    exact Quaternion.magnitudeSq_identity

/-- A quaternion that is already unit is a fixed point of normalization. -/
theorem Quaternion.normalized_of_unit {q : Quaternion} (h : q.magnitudeSq = 1) :
    q.normalized = q := by
  have hmag : q.magnitude = 1 := by
    unfold Quaternion.magnitude; rw [h]; exact Real.sqrt_one
  unfold Quaternion.normalized
  rw [hmag]
  simp

/-- The product of a quaternion and its conjugate is the scalar quaternion
whose scalar part is the squared magnitude. -/
theorem Quaternion.mul_conjugate (q : Quaternion) :
    q.mul q.conjugate = ⟨q.magnitudeSq, 0, 0, 0⟩ := by
  simp only [Quaternion.mul, Quaternion.conjugate, Quaternion.magnitudeSq]
  ext <;> ring

/-- Rotating by a unit quaternion after rotating by its conjugate restores the
vector: the two sandwich products cancel exactly. -/
theorem Quaternion.rotate_conjugate_rotate {q : Quaternion}
    (h : q.magnitudeSq = 1) (v : Vec3) :
    q.rotate (q.conjugate.rotate v) = v := by
  have hS : q.w * q.w + q.x * q.x + q.y * q.y + q.z * q.z = 1 := h
  simp only [Quaternion.rotate, Quaternion.mul, Quaternion.conjugate]
  ext
  · show _ = v.x
    linear_combination (v.x * ((q.w * q.w + q.x * q.x + q.y * q.y + q.z * q.z) + 1)) * hS
  · show _ = v.y
    linear_combination (v.y * ((q.w * q.w + q.x * q.x + q.y * q.y + q.z * q.z) + 1)) * hS
  · show _ = v.z
    linear_combination (v.z * ((q.w * q.w + q.x * q.x + q.y * q.y + q.z * q.z) + 1)) * hS

/-- Embeds `cnc::Transform` (src/core/geometry/Transform.h): rigid transform
with position and rotation fields. -/
@[ext]
structure Transform where
  position : Vec3
  rotation : Quaternion

/-- The two-argument `Transform` constructor, which renormalizes the rotation
it stores. -/
noncomputable def Transform.make (position : Vec3) (rotation : Quaternion) : Transform :=
  ⟨position, rotation.normalized⟩

/-- Default-constructed identity transform, `Transform::identity`. -/
def Transform.identity : Transform := ⟨Vec3.zero, Quaternion.identity⟩

/-- Transform a point, `Transform::transformPoint`: rotate then translate. -/
def Transform.transformPoint (t : Transform) (point : Vec3) : Vec3 :=
  t.position.add (t.rotation.rotate point)

/-- Inverse transform, `Transform::inverse`: conjugate rotation applied to
the negated position, rebuilt through the normalizing constructor. -/
noncomputable def Transform.inverse (t : Transform) : Transform :=
  let invRot := t.rotation.conjugate
  let invPos := invRot.rotate t.position.neg
  Transform.make invPos invRot

/-- Composition `Transform::operator*`: `a.compose b` applies `b` first,
then `a`; the result is rebuilt through the normalizing constructor. -/
noncomputable def Transform.compose (a b : Transform) : Transform :=
  Transform.make (a.transformPoint b.position) (a.rotation.mul b.rotation)

theorem Transform.make_position (p : Vec3) (q : Quaternion) :
    (Transform.make p q).position = p := rfl

theorem Transform.make_rotation (p : Vec3) (q : Quaternion) :
    (Transform.make p q).rotation = q.normalized := rfl

/-- C7. Transform inverse identity: for every transform built by the
renormalizing constructor, composing it with its inverse yields the identity
transform exactly — the position is the origin (so its distance from the
origin is within 1e-9) and the rotation's quaternion dot product with the
identity quaternion is exactly 1. -/
theorem transform_compose_inverse_is_identity (p : Vec3) (q : Quaternion) :
    ((Transform.make p q).compose (Transform.make p q).inverse).position.length ≤ 1e-9 ∧
    Quaternion.dot ((Transform.make p q).compose (Transform.make p q).inverse).rotation
      Quaternion.identity = 1 := by
  have hunit : q.normalized.magnitudeSq = 1 := q.magnitudeSq_normalized
  have hconj_unit : q.normalized.conjugate.magnitudeSq = 1 := by
    rw [Quaternion.magnitudeSq_conjugate]; exact hunit
  have hinv_rot : (Transform.make p q).inverse.rotation = q.normalized.conjugate := by
    simp only [Transform.inverse, Transform.make_rotation]
    exact Quaternion.normalized_of_unit hconj_unit
  have hinv_pos : (Transform.make p q).inverse.position
      = q.normalized.conjugate.rotate p.neg := rfl
  constructor
  · have hpos : ((Transform.make p q).compose (Transform.make p q).inverse).position
        = Vec3.zero := by
      simp only [Transform.compose, Transform.make_position, Transform.transformPoint,
        Transform.make_rotation, hinv_pos]
      rw [Quaternion.rotate_conjugate_rotate hunit p.neg]
      simp only [Vec3.add, Vec3.neg, Vec3.zero]
      ext <;> (show _ = (0 : ℝ); ring)
    rw [hpos]
    have : Vec3.zero.length = 0 := by
      simp [Vec3.length, Vec3.lengthSquared, Vec3.zero, Real.sqrt_zero]
    rw [this]; norm_num
  · have hrot : ((Transform.make p q).compose (Transform.make p q).inverse).rotation
        = Quaternion.identity := by
      simp only [Transform.compose, Transform.make_rotation, hinv_rot]
      rw [Quaternion.mul_conjugate, hunit]
      exact Quaternion.normalized_of_unit (by simp [Quaternion.magnitudeSq])
    rw [hrot]
    simp [Quaternion.dot, Quaternion.identity]

/-! ## Tool sweep and spherical interpolation (src/core/geometry/ToolSweep.h) -/

/-- Embeds the data of `cnc::ToolSweep`: start and end tool poses plus a
sampling resolution hint. The `Tool` reference held by the source object is
an opaque read-only collaborator not consulted by any operation modelled
here, so it is omitted. -/
structure ToolSweep where
  startTransform : Transform
  endTransform : Transform
  resolutionHint : ℝ

/-- Linear-interpolation fallback branch of `ToolSweep::slerp`, taken when the
corrected dot product exceeds 0.9995, before the final normalization:
componentwise `q1 + (q2Adjusted - q1) * t`. -/
def ToolSweep.lerpPart (q1 q2a : Quaternion) (t : ℝ) : Quaternion :=
  ⟨q1.w + (q2a.w - q1.w) * t,
   q1.x + (q2a.x - q1.x) * t,
   q1.y + (q2a.y - q1.y) * t,
   q1.z + (q2a.z - q1.z) * t⟩

/-- Spherical-interpolation branch of `ToolSweep::slerp`, before the final
normalization: weights `sin((1-t)·θ)/sin θ` and `sin(t·θ)/sin θ` with
`θ = arccos` of the corrected dot product `d2`. -/
noncomputable def ToolSweep.slerpPart (q1 q2a : Quaternion) (d2 t : ℝ) : Quaternion :=
  let theta := Real.arccos d2
  let sinTheta := Real.sin theta
  let w1 := Real.sin ((1 - t) * theta) / sinTheta
  let w2 := Real.sin (t * theta) / sinTheta
  ⟨q1.w * w1 + q2a.w * w2,
   q1.x * w1 + q2a.x * w2,
   q1.y * w1 + q2a.y * w2,
   q1.z * w1 + q2a.z * w2⟩

/-- Embeds `ToolSweep::slerp` (src/core/geometry/ToolSweep.h lines 146-178):
shortest-path correction negates the second quaternion when the dot product
is negative; very close quaternions (corrected dot above 0.9995) use the
linear fallback; both branches renormalize the result. -/
noncomputable def ToolSweep.slerp (q1 q2 : Quaternion) (t : ℝ) : Quaternion :=
  let d := Quaternion.dot q1 q2
  let q2a := if d < 0 then q2.neg else q2
  let d2 := if d < 0 then -d else d
  if d2 > 0.9995 then (ToolSweep.lerpPart q1 q2a t).normalized
  else (ToolSweep.slerpPart q1 q2a d2 t).normalized

theorem Quaternion.dot_neg_right (a b : Quaternion) : a.dot b.neg = -(a.dot b) := by
  simp only [Quaternion.dot, Quaternion.neg]; ring

/-- Unfolding of `ToolSweep.slerp` when the dot product is nonnegative (no
shortest-path correction). -/
theorem ToolSweep.slerp_def_nonneg {q1 q2 : Quaternion} (t : ℝ)
    (hd : ¬ Quaternion.dot q1 q2 < 0) :
    ToolSweep.slerp q1 q2 t =
      if Quaternion.dot q1 q2 > 0.9995 then (ToolSweep.lerpPart q1 q2 t).normalized
      else (ToolSweep.slerpPart q1 q2 (Quaternion.dot q1 q2) t).normalized := by
  unfold ToolSweep.slerp
  simp only [if_neg hd]

/-- Unfolding of `ToolSweep.slerp` when the dot product is negative (the
shortest-path correction negates the second quaternion and the dot). -/
theorem ToolSweep.slerp_def_neg {q1 q2 : Quaternion} (t : ℝ)
    (hd : Quaternion.dot q1 q2 < 0) :
    ToolSweep.slerp q1 q2 t =
      if -Quaternion.dot q1 q2 > 0.9995 then (ToolSweep.lerpPart q1 q2.neg t).normalized
      else (ToolSweep.slerpPart q1 q2.neg (-Quaternion.dot q1 q2) t).normalized := by
  unfold ToolSweep.slerp
  simp only [if_pos hd]

/-- Evaluating the linear fallback at the endpoints. -/
theorem ToolSweep.lerpPart_zero (q1 q2a : Quaternion) :
    ToolSweep.lerpPart q1 q2a 0 = q1 := by
  simp only [ToolSweep.lerpPart]; ext <;> ring

theorem ToolSweep.lerpPart_one (q1 q2a : Quaternion) :
    ToolSweep.lerpPart q1 q2a 1 = q2a := by
  simp only [ToolSweep.lerpPart]; ext <;> ring

/-- C8 counterexample: for the unit quaternions `q1 = (1,0,0,0)` (identity)
and `q2 = (-1,0,0,0)`, the sweep slerp at `t = 1` returns the identity, the
shortest-path negation of `q2`, which differs from `q2` in the scalar
component by 2 — not within any interpolation tolerance. So
`slerp(q1, q2, 1) = q2` fails for unit quaternions with negative dot. -/
theorem slerp_one_shortest_path_counterexample :
    Quaternion.identity.magnitudeSq = 1 ∧
    (Quaternion.mk (-1) 0 0 0).magnitudeSq = 1 ∧
    ToolSweep.slerp Quaternion.identity (Quaternion.mk (-1) 0 0 0) 1
      = Quaternion.identity ∧
    (ToolSweep.slerp Quaternion.identity (Quaternion.mk (-1) 0 0 0) 1).w
      - (Quaternion.mk (-1) 0 0 0).w = 2 := by
  have hdot : Quaternion.dot Quaternion.identity (Quaternion.mk (-1) 0 0 0) = -1 := by
    simp [Quaternion.dot, Quaternion.identity]
  have hneg : (Quaternion.mk (-1) 0 0 0).neg = Quaternion.identity := by
    simp only [Quaternion.neg, Quaternion.identity]
    ext <;> norm_num
  have hslerp : ToolSweep.slerp Quaternion.identity (Quaternion.mk (-1) 0 0 0) 1
      = Quaternion.identity := by
    rw [ToolSweep.slerp_def_neg 1 (by rw [hdot]; norm_num), hdot]
    rw [if_pos (by norm_num)]
    rw [hneg, ToolSweep.lerpPart_one]
    exact Quaternion.normalized_of_unit Quaternion.magnitudeSq_identity
  refine ⟨Quaternion.magnitudeSq_identity, ?_, hslerp, ?_⟩
  · simp [Quaternion.magnitudeSq]
  · rw [hslerp]; simp [Quaternion.identity]; norm_num

/-- Cauchy–Schwarz for the four-component quaternion dot product. -/
theorem Quaternion.dot_sq_le (a b : Quaternion) :
    (a.dot b) ^ 2 ≤ a.magnitudeSq * b.magnitudeSq := by
  simp only [Quaternion.dot, Quaternion.magnitudeSq]
  nlinarith [sq_nonneg (a.w * b.x - a.x * b.w), sq_nonneg (a.w * b.y - a.y * b.w),
    sq_nonneg (a.w * b.z - a.z * b.w), sq_nonneg (a.x * b.y - a.y * b.x),
    sq_nonneg (a.x * b.z - a.z * b.x), sq_nonneg (a.y * b.z - a.z * b.y)]

/-- For the spherical branch (corrected dot `d2` in `[0, 0.9995]`), the sine
of `θ = arccos d2` is positive, so the interpolation weights are defined. -/
theorem slerp_sin_theta_pos {d2 : ℝ} (h0 : 0 ≤ d2) (h1 : d2 ≤ 0.9995) :
    0 < Real.sin (Real.arccos d2) := by
  apply Real.sin_pos_of_pos_of_lt_pi
  · exact Real.arccos_pos.mpr (by linarith)
  · have := Real.arccos_le_pi_div_two.mpr h0
    have hpi := Real.pi_pos
    linarith

/-- Spherical branch at `t = 0` evaluates to `q1` before normalization. -/
theorem ToolSweep.slerpPart_zero (q1 q2a : Quaternion) {d2 : ℝ}
    (h0 : 0 ≤ d2) (h1 : d2 ≤ 0.9995) :
    ToolSweep.slerpPart q1 q2a d2 0 = q1 := by
  have hsin := slerp_sin_theta_pos h0 h1
  simp only [ToolSweep.slerpPart]
  rw [show (1 - (0 : ℝ)) * Real.arccos d2 = Real.arccos d2 by ring,
    show (0 : ℝ) * Real.arccos d2 = 0 by ring, Real.sin_zero,
    div_self (ne_of_gt hsin), zero_div]
  ext <;> ring

/-- Spherical branch at `t = 1` evaluates to the (corrected) second
quaternion before normalization. -/
theorem ToolSweep.slerpPart_one (q1 q2a : Quaternion) {d2 : ℝ}
    (h0 : 0 ≤ d2) (h1 : d2 ≤ 0.9995) :
    ToolSweep.slerpPart q1 q2a d2 1 = q2a := by
  have hsin := slerp_sin_theta_pos h0 h1
  simp only [ToolSweep.slerpPart]
  rw [show (1 - (1 : ℝ)) * Real.arccos d2 = 0 by ring,
    show (1 : ℝ) * Real.arccos d2 = Real.arccos d2 by ring, Real.sin_zero,
    div_self (ne_of_gt hsin), zero_div]
  ext <;> ring

/-- Dot of `q1` with the normalization of a quaternion of positive magnitude
is the dot with the quaternion divided by its magnitude. -/
theorem Quaternion.dot_normalized (q1 x : Quaternion) (h : 0 < x.magnitude) :
    q1.dot x.normalized = q1.dot x / x.magnitude := by
  unfold Quaternion.normalized
  rw [if_pos h]
  simp only [Quaternion.dot]
  field_simp

/-- Trigonometric identity behind the spherical weights: the squared norm of
the weighted combination, scaled by `sin² θ`, equals `sin² θ`. -/
theorem slerp_weight_sq_identity {d2 : ℝ} (t : ℝ) (hlow : -1 ≤ d2) (hhigh : d2 ≤ 1) :
    Real.sin ((1 - t) * Real.arccos d2) ^ 2
      + 2 * Real.sin ((1 - t) * Real.arccos d2) * Real.sin (t * Real.arccos d2) * d2
      + Real.sin (t * Real.arccos d2) ^ 2
      = Real.sin (Real.arccos d2) ^ 2 := by
  have hcos : Real.cos (Real.arccos d2) = d2 := Real.cos_arccos hlow hhigh
  have hsub : Real.sin ((1 - t) * Real.arccos d2)
      = Real.sin (Real.arccos d2) * Real.cos (t * Real.arccos d2)
        - Real.cos (Real.arccos d2) * Real.sin (t * Real.arccos d2) := by
    rw [show (1 - t) * Real.arccos d2 = Real.arccos d2 - t * Real.arccos d2 by ring,
      Real.sin_sub]
  have hpyth : Real.sin (Real.arccos d2) ^ 2 = 1 - d2 ^ 2 := by
    have h := Real.sin_sq_add_cos_sq (Real.arccos d2)
    rw [hcos] at h; linarith
  have hpyth2 := Real.sin_sq_add_cos_sq (t * Real.arccos d2)
  rw [hsub, hcos]
  linear_combination (Real.cos (t * Real.arccos d2) ^ 2 - 1) * hpyth
    + (1 - d2 ^ 2) * hpyth2

/-- Trigonometric identity behind the spherical weights: the dot of `q1` with
the combination, scaled by `sin θ`, equals `cos(t·θ)·sin θ`. -/
theorem slerp_weight_dot_identity {d2 : ℝ} (t : ℝ) (hlow : -1 ≤ d2) (hhigh : d2 ≤ 1) :
    Real.sin ((1 - t) * Real.arccos d2) + Real.sin (t * Real.arccos d2) * d2
      = Real.cos (t * Real.arccos d2) * Real.sin (Real.arccos d2) := by
  have hcos : Real.cos (Real.arccos d2) = d2 := Real.cos_arccos hlow hhigh
  have hsub : Real.sin ((1 - t) * Real.arccos d2)
      = Real.sin (Real.arccos d2) * Real.cos (t * Real.arccos d2)
        - Real.cos (Real.arccos d2) * Real.sin (t * Real.arccos d2) := by
    rw [show (1 - t) * Real.arccos d2 = Real.arccos d2 - t * Real.arccos d2 by ring,
      Real.sin_sub]
  rw [hsub, hcos]; ring

/-- The spherical branch preserves the unit norm: for unit `q1`, unit `q2a`
with `dot q1 q2a = d2 ∈ [0, 0.9995]`, the pre-normalization combination is
itself a unit quaternion. -/
theorem ToolSweep.slerpPart_magnitudeSq (q1 q2a : Quaternion) {d2 : ℝ} (t : ℝ)
    (hq1 : q1.magnitudeSq = 1) (hq2a : q2a.magnitudeSq = 1)
    (hdot : q1.dot q2a = d2) (h0 : 0 ≤ d2) (h1 : d2 ≤ 0.9995) :
    (ToolSweep.slerpPart q1 q2a d2 t).magnitudeSq = 1 := by
  have hsin := slerp_sin_theta_pos h0 h1
  have hsinne : Real.sin (Real.arccos d2) ≠ 0 := ne_of_gt hsin
  have hd2sq : d2 ^ 2 ≤ 1 := by
    have := Quaternion.dot_sq_le q1 q2a
    rw [hq1, hq2a, hdot] at this; linarith
  have hlow : -1 ≤ d2 := by nlinarith
  have hkey := slerp_weight_sq_identity t hlow (by linarith)
  have expand : (ToolSweep.slerpPart q1 q2a d2 t).magnitudeSq
      = (Real.sin ((1 - t) * Real.arccos d2) / Real.sin (Real.arccos d2)) ^ 2
          * q1.magnitudeSq
        + 2 * (Real.sin ((1 - t) * Real.arccos d2) / Real.sin (Real.arccos d2))
          * (Real.sin (t * Real.arccos d2) / Real.sin (Real.arccos d2)) * (q1.dot q2a)
        + (Real.sin (t * Real.arccos d2) / Real.sin (Real.arccos d2)) ^ 2
          * q2a.magnitudeSq := by
    simp only [ToolSweep.slerpPart, Quaternion.magnitudeSq, Quaternion.dot]
    ring
  rw [expand, hq1, hq2a, hdot]
  field_simp
  linear_combination Real.sin (Real.arccos d2) ^ 4 * hkey

/-- Dot of `q1` with the spherical-branch combination before normalization:
exactly `cos(t·arccos d2)`. -/
theorem ToolSweep.dot_slerpPart (q1 q2a : Quaternion) {d2 : ℝ} (t : ℝ)
    (hq1 : q1.magnitudeSq = 1)
    (hdot : q1.dot q2a = d2) (hlow : -1 ≤ d2) (h0 : 0 ≤ d2) (h1 : d2 ≤ 0.9995) :
    q1.dot (ToolSweep.slerpPart q1 q2a d2 t) = Real.cos (t * Real.arccos d2) := by
  have hsin := slerp_sin_theta_pos h0 h1
  have hsinne : Real.sin (Real.arccos d2) ≠ 0 := ne_of_gt hsin
  have hkey := slerp_weight_dot_identity t hlow (by linarith)
  have expand : q1.dot (ToolSweep.slerpPart q1 q2a d2 t)
      = (Real.sin ((1 - t) * Real.arccos d2) / Real.sin (Real.arccos d2))
          * q1.magnitudeSq
        + (Real.sin (t * Real.arccos d2) / Real.sin (Real.arccos d2))
          * (q1.dot q2a) := by
    simp only [ToolSweep.slerpPart, Quaternion.magnitudeSq, Quaternion.dot]
    ring
  rw [expand, hq1, hdot]
  field_simp
  linear_combination hkey

/-- Dot of `q1` with the linear fallback before normalization. -/
theorem ToolSweep.lerpPart_dot (q1 q2a : Quaternion) (t : ℝ)
    (hq1 : q1.magnitudeSq = 1) :
    q1.dot (ToolSweep.lerpPart q1 q2a t) = 1 - t * (1 - q1.dot q2a) := by
  simp only [ToolSweep.lerpPart, Quaternion.dot, Quaternion.magnitudeSq] at *
  linear_combination (1 - t) * hq1

/-- Squared magnitude of the linear fallback before normalization. -/
theorem ToolSweep.lerpPart_magnitudeSq (q1 q2a : Quaternion) (t : ℝ)
    (hq1 : q1.magnitudeSq = 1) (hq2a : q2a.magnitudeSq = 1) :
    (ToolSweep.lerpPart q1 q2a t).magnitudeSq
      = 1 - 2 * t * (1 - t) * (1 - q1.dot q2a) := by
  simp only [ToolSweep.lerpPart, Quaternion.magnitudeSq, Quaternion.dot] at *
  linear_combination (1 - t) ^ 2 * hq1 + t ^ 2 * hq2a

/-- Monotonicity of the normalized linear fallback: for `a = 1 - d2 ∈ [0,1]`
the function `u ↦ (1 - u·a)/√(1 - 2u(1-u)a)` is antitone on `[0,1]`. -/
theorem lerp_dot_antitone {a s t : ℝ} (ha0 : 0 ≤ a) (ha1 : a ≤ 1)
    (hs : 0 ≤ s) (hst : s ≤ t) (ht : t ≤ 1) :
    (1 - t * a) / Real.sqrt (1 - 2 * t * (1 - t) * a)
      ≤ (1 - s * a) / Real.sqrt (1 - 2 * s * (1 - s) * a) := by
  have ht0 : 0 ≤ t := le_trans hs hst
  have hs1 : s ≤ 1 := le_trans hst ht
  have hDt : 0 < 1 - 2 * t * (1 - t) * a := by
    nlinarith [sq_nonneg (2 * t - 1), mul_nonneg (mul_nonneg ht0 (by linarith : (0:ℝ) ≤ 1 - t)) (by linarith : (0:ℝ) ≤ 1 - a)]
  have hDs : 0 < 1 - 2 * s * (1 - s) * a := by
    nlinarith [sq_nonneg (2 * s - 1), mul_nonneg (mul_nonneg hs (by linarith : (0:ℝ) ≤ 1 - s)) (by linarith : (0:ℝ) ≤ 1 - a)]
  have hNt : 0 ≤ 1 - t * a := by nlinarith
  have hNs : 0 ≤ 1 - s * a := by nlinarith
  rw [div_le_div_iff₀ (Real.sqrt_pos.mpr hDt) (Real.sqrt_pos.mpr hDs)]
  have hA : (1 - t * a) * Real.sqrt (1 - 2 * s * (1 - s) * a)
      = Real.sqrt ((1 - t * a) ^ 2 * (1 - 2 * s * (1 - s) * a)) := by
    rw [Real.sqrt_mul (sq_nonneg _), Real.sqrt_sq hNt]
  have hB : (1 - s * a) * Real.sqrt (1 - 2 * t * (1 - t) * a)
      = Real.sqrt ((1 - s * a) ^ 2 * (1 - 2 * t * (1 - t) * a)) := by
    rw [Real.sqrt_mul (sq_nonneg _), Real.sqrt_sq hNs]
  rw [hA, hB]
  apply Real.sqrt_le_sqrt
  have hfac : 0 ≤ (t - s) * a * (2 - a) * ((s + t) - 2 * s * t * a) := by
    have h1 : 0 ≤ (t - s) * a := mul_nonneg (by linarith) ha0
    have h2 : 0 ≤ (t - s) * a * (2 - a) := mul_nonneg h1 (by linarith)
    have h3 : 0 ≤ (s + t) - 2 * s * t * a := by nlinarith
    exact mul_nonneg h2 h3
  nlinarith [hfac]

/-- Boundary of the corrected interpolation at `t = 0`: both branches return
`q1` exactly (after normalization of a unit quaternion). -/
theorem slerp_corrected_zero (q1 q2a : Quaternion) {d2 : ℝ}
    (hq1 : q1.magnitudeSq = 1) (h0 : 0 ≤ d2) :
    (if d2 > 0.9995 then (ToolSweep.lerpPart q1 q2a 0).normalized
      else (ToolSweep.slerpPart q1 q2a d2 0).normalized) = q1 := by
  by_cases hbr : d2 > 0.9995
  · rw [if_pos hbr, ToolSweep.lerpPart_zero, Quaternion.normalized_of_unit hq1]
  · rw [if_neg hbr, ToolSweep.slerpPart_zero q1 q2a h0 (by linarith),
      Quaternion.normalized_of_unit hq1]

/-- Boundary of the corrected interpolation at `t = 1`: both branches return
the (shortest-path corrected) second quaternion exactly. -/
theorem slerp_corrected_one (q1 q2a : Quaternion) {d2 : ℝ}
    (hq2a : q2a.magnitudeSq = 1) (h0 : 0 ≤ d2) :
    (if d2 > 0.9995 then (ToolSweep.lerpPart q1 q2a 1).normalized
      else (ToolSweep.slerpPart q1 q2a d2 1).normalized) = q2a := by
  by_cases hbr : d2 > 0.9995
  · rw [if_pos hbr, ToolSweep.lerpPart_one, Quaternion.normalized_of_unit hq2a]
  · rw [if_neg hbr, ToolSweep.slerpPart_one q1 q2a h0 (by linarith),
      Quaternion.normalized_of_unit hq2a]

/-- In either branch the angle of the interpolant measured from `q1` grows
monotonically: the dot product with `q1` is antitone in the parameter. -/
theorem slerp_corrected_dot_antitone (q1 q2a : Quaternion) {d2 s t : ℝ}
    (hq1 : q1.magnitudeSq = 1) (hq2a : q2a.magnitudeSq = 1)
    (hdot : q1.dot q2a = d2) (h0 : 0 ≤ d2) (hd1 : d2 ≤ 1)
    (hs : 0 ≤ s) (hst : s ≤ t) (ht : t ≤ 1) :
    q1.dot (if d2 > 0.9995 then (ToolSweep.lerpPart q1 q2a t).normalized
      else (ToolSweep.slerpPart q1 q2a d2 t).normalized)
      ≤ q1.dot (if d2 > 0.9995 then (ToolSweep.lerpPart q1 q2a s).normalized
      else (ToolSweep.slerpPart q1 q2a d2 s).normalized) := by
  have ht0 : 0 ≤ t := le_trans hs hst
  have hs1 : s ≤ 1 := le_trans hst ht
  by_cases hbr : d2 > 0.9995
  · rw [if_pos hbr, if_pos hbr]
    have hform : ∀ u : ℝ, 0 ≤ u → u ≤ 1 →
        q1.dot (ToolSweep.lerpPart q1 q2a u).normalized
          = (1 - u * (1 - d2)) / Real.sqrt (1 - 2 * u * (1 - u) * (1 - d2)) := by
      intro u hu0 hu1
      have hmagSq : (ToolSweep.lerpPart q1 q2a u).magnitudeSq
          = 1 - 2 * u * (1 - u) * (1 - d2) := by
        rw [ToolSweep.lerpPart_magnitudeSq q1 q2a u hq1 hq2a, hdot]
      have hpos : 0 < (ToolSweep.lerpPart q1 q2a u).magnitudeSq := by
        rw [hmagSq]
        nlinarith [sq_nonneg (2 * u - 1), mul_nonneg (mul_nonneg hu0 (by linarith : (0:ℝ) ≤ 1 - u)) (by linarith : (0:ℝ) ≤ 1 - (1 - d2))]
      have hmagpos : 0 < (ToolSweep.lerpPart q1 q2a u).magnitude :=
        Real.sqrt_pos.mpr hpos
      rw [Quaternion.dot_normalized _ _ hmagpos,
        ToolSweep.lerpPart_dot q1 q2a u hq1, hdot]
      unfold Quaternion.magnitude
      rw [hmagSq]
    rw [hform t ht0 ht, hform s hs hs1]
    exact lerp_dot_antitone (by linarith) (by linarith) hs hst ht
  · rw [if_neg hbr, if_neg hbr]
    have hform : ∀ u : ℝ,
        q1.dot (ToolSweep.slerpPart q1 q2a d2 u).normalized
          = Real.cos (u * Real.arccos d2) := by
      intro u
      have hunit := ToolSweep.slerpPart_magnitudeSq q1 q2a u hq1 hq2a hdot h0
        (by linarith)
      rw [Quaternion.normalized_of_unit hunit]
      exact ToolSweep.dot_slerpPart q1 q2a u hq1 hdot (by linarith) h0 (by linarith)
    rw [hform t, hform s]
    have htheta0 : 0 ≤ Real.arccos d2 := Real.arccos_nonneg d2
    have hthetapi : Real.arccos d2 ≤ Real.pi / 2 :=
      Real.arccos_le_pi_div_two.mpr h0
    have hpi := Real.pi_pos
    apply Real.cos_le_cos_of_nonneg_of_le_pi
    · exact mul_nonneg hs htheta0
    · calc t * Real.arccos d2 ≤ 1 * Real.arccos d2 :=
            mul_le_mul_of_nonneg_right ht htheta0
        _ = Real.arccos d2 := one_mul _
        _ ≤ Real.pi / 2 := hthetapi
        _ ≤ Real.pi := by linarith
    · exact mul_le_mul_of_nonneg_right hst htheta0

/-- C8 (amended). Slerp boundary for unit quaternions: `slerp(q1, q2, 0)`
returns `q1` exactly; `slerp(q1, q2, 1)` returns `q2` exactly when
`dot(q1, q2) ≥ 0`, and the shortest-path negation `-q2` when the dot is
negative; and the angular progression from `q1` is monotonic on `[0,1]`
(the dot with `q1` is antitone, hence the angle is nondecreasing). -/
theorem slerp_boundary_monotone (q1 q2 : Quaternion)
    (hq1 : q1.magnitudeSq = 1) (hq2 : q2.magnitudeSq = 1) :
    ToolSweep.slerp q1 q2 0 = q1 ∧
    ToolSweep.slerp q1 q2 1 = (if Quaternion.dot q1 q2 < 0 then q2.neg else q2) ∧
    ∀ s t : ℝ, 0 ≤ s → s ≤ t → t ≤ 1 →
      Quaternion.dot q1 (ToolSweep.slerp q1 q2 t)
        ≤ Quaternion.dot q1 (ToolSweep.slerp q1 q2 s) := by
  have hcs : (q1.dot q2) ^ 2 ≤ 1 := by
    have := Quaternion.dot_sq_le q1 q2
    rw [hq1, hq2] at this; linarith
  by_cases hd : Quaternion.dot q1 q2 < 0
  · have hdot : q1.dot q2.neg = -(q1.dot q2) := Quaternion.dot_neg_right q1 q2
    have hq2a : q2.neg.magnitudeSq = 1 := by
      rw [Quaternion.magnitudeSq_neg]; exact hq2
    have h0 : 0 ≤ -(q1.dot q2) := by linarith
    have hd1 : -(q1.dot q2) ≤ 1 := by nlinarith
    refine ⟨?_, ?_, ?_⟩
    · rw [ToolSweep.slerp_def_neg 0 hd]
      exact slerp_corrected_zero q1 q2.neg hq1 h0
    · rw [ToolSweep.slerp_def_neg 1 hd, if_pos hd]
      exact slerp_corrected_one q1 q2.neg hq2a h0
    · intro s t hs hst ht
      rw [ToolSweep.slerp_def_neg t hd, ToolSweep.slerp_def_neg s hd]
      exact slerp_corrected_dot_antitone q1 q2.neg hq1 hq2a hdot h0 hd1 hs hst ht
  · have h0 : 0 ≤ q1.dot q2 := not_lt.mp hd
    have hd1 : q1.dot q2 ≤ 1 := by nlinarith
    refine ⟨?_, ?_, ?_⟩
    · rw [ToolSweep.slerp_def_nonneg 0 hd]
      exact slerp_corrected_zero q1 q2 hq1 h0
    · rw [ToolSweep.slerp_def_nonneg 1 hd, if_neg hd]
      exact slerp_corrected_one q1 q2 hq2 h0
    · intro s t hs hst ht
      rw [ToolSweep.slerp_def_nonneg t hd, ToolSweep.slerp_def_nonneg s hd]
      exact slerp_corrected_dot_antitone q1 q2 hq1 hq2 rfl h0 hd1 hs hst ht

/-- Witness for C8 (amended) at the concrete unit quaternions
`q1 = q2 = identity`: the hypotheses are discharged by evaluation. -/
theorem slerp_boundary_monotone_witness :
    Quaternion.identity.magnitudeSq = 1 ∧
    (ToolSweep.slerp Quaternion.identity Quaternion.identity 0 = Quaternion.identity ∧
     ToolSweep.slerp Quaternion.identity Quaternion.identity 1
       = (if Quaternion.dot Quaternion.identity Quaternion.identity < 0 then
            Quaternion.identity.neg else Quaternion.identity) ∧
     ∀ s t : ℝ, 0 ≤ s → s ≤ t → t ≤ 1 →
       Quaternion.dot Quaternion.identity
           (ToolSweep.slerp Quaternion.identity Quaternion.identity t)
         ≤ Quaternion.dot Quaternion.identity
           (ToolSweep.slerp Quaternion.identity Quaternion.identity s)) :=
  ⟨Quaternion.magnitudeSq_identity,
   slerp_boundary_monotone Quaternion.identity Quaternion.identity
     Quaternion.magnitudeSq_identity Quaternion.magnitudeSq_identity⟩

/-! ## Toolpath model (src/core/toolpath) -/

/-- Embeds `cnc::MoveType` (src/core/toolpath/MoveType.h). -/
inductive MoveType where
  | Rapid
  | Linear
  | ArcCW
  | ArcCCW
  | Dwell
  | ToolChange
  | SpindleStart
  | SpindleStop
deriving DecidableEq

/-- Embeds `cnc::isCuttingMove`: Linear, ArcCW and ArcCCW remove material. -/
def isCuttingMove (t : MoveType) : Prop :=
  t = MoveType.Linear ∨ t = MoveType.ArcCW ∨ t = MoveType.ArcCCW

/-- Embeds `cnc::isArcMove`. -/
def isArcMove (t : MoveType) : Prop :=
  t = MoveType.ArcCW ∨ t = MoveType.ArcCCW

/-- Embeds `cnc::requiresFeedrate`: exactly the cutting motions. -/
def requiresFeedrate (t : MoveType) : Prop := isCuttingMove t

instance (t : MoveType) : Decidable (isCuttingMove t) := by
  unfold isCuttingMove; infer_instance

instance (t : MoveType) : Decidable (isArcMove t) := by
  unfold isArcMove; infer_instance

instance (t : MoveType) : Decidable (requiresFeedrate t) := by
  unfold requiresFeedrate isCuttingMove; infer_instance

/-- Embeds `cnc::CoolantState` (src/core/toolpath/ToolpathState.h). -/
inductive CoolantState where
  | Off
  | Flood
  | Mist
  | Through
deriving DecidableEq

/-- Embeds `cnc::CoordinateMode` (src/core/toolpath/ToolpathState.h). -/
inductive CoordinateMode where
  | Absolute
  | Incremental
deriving DecidableEq

/-- Embeds `cnc::ToolpathState` (src/core/toolpath/ToolpathState.h): an
immutable snapshot of machine state. The constructors clamp negative feed
rate and spindle speed to zero; `ToolpathState.make` models that below, while
theorems quantify over the stored fields. -/
structure ToolpathState where
  position : Vec3
  rotaryAxes : Vec3
  feedRate : ℝ
  spindleRPM : ℝ
  activeToolId : String
  coolantState : CoolantState
  coordinateMode : CoordinateMode

/-- The primary `ToolpathState` constructor: rotary axes default to zero and
negative feed rate / spindle speed are clamped to zero. -/
noncomputable def ToolpathState.make (position : Vec3) (feedRate spindleRPM : ℝ)
    (activeToolId : String) (coolantState : CoolantState)
    (coordinateMode : CoordinateMode) : ToolpathState :=
  ⟨position, ⟨0, 0, 0⟩, if 0 ≤ feedRate then feedRate else 0,
   if 0 ≤ spindleRPM then spindleRPM else 0, activeToolId, coolantState, coordinateMode⟩

/-- Embeds `ToolpathState::hasFeedRate`: the feed rate is strictly positive. -/
def ToolpathState.hasFeedRate (s : ToolpathState) : Prop := 0 < s.feedRate

/-- Embeds `ToolpathState::hasActiveTool`. -/
def ToolpathState.hasActiveTool (s : ToolpathState) : Prop := s.activeToolId ≠ ""

/-- Embeds `ToolpathState::isSpindleRunning`. -/
def ToolpathState.isSpindleRunning (s : ToolpathState) : Prop := 0 < s.spindleRPM

/-- Embeds `ToolpathState::isValid`: the source checks that every numeric
field is finite (`std::isfinite`); over exact real arithmetic every value is
finite, so the predicate is identically true. -/
def ToolpathState.isValid (_ : ToolpathState) : Prop := True

/-- Embeds `cnc::ToolpathMove` (src/core/toolpath/ToolpathMove.h): one atomic
instruction with start/end state snapshots, an optional arc center, a dwell
duration and the rapid-allowed safety flag. Constructed only through the
factory operations below. -/
structure ToolpathMove where
  moveType : MoveType
  startState : ToolpathState
  endState : ToolpathState
  arcCenter : Option Vec3
  dwellDuration : ℝ
  rapidAllowed : Bool

/-- Factory `ToolpathMove::rapid`. -/
def ToolpathMove.rapid (start finish : ToolpathState) : ToolpathMove :=
  ⟨MoveType.Rapid, start, finish, none, 0, true⟩

/-- Factory `ToolpathMove::linear`. -/
def ToolpathMove.linear (start finish : ToolpathState) : ToolpathMove :=
  ⟨MoveType.Linear, start, finish, none, 0, false⟩

/-- Factory `ToolpathMove::arc`: arc type (CW or CCW), start/end states and
the recorded center. -/
def ToolpathMove.arc (arcType : MoveType) (start finish : ToolpathState)
    (center : Vec3) : ToolpathMove :=
  ⟨arcType, start, finish, some center, 0, false⟩

/-- Factory `ToolpathMove::dwell`. -/
def ToolpathMove.dwell (state : ToolpathState) (duration : ℝ) : ToolpathMove :=
  ⟨MoveType.Dwell, state, state, none, duration, false⟩

/-- Factory `ToolpathMove::toolChange`: the source copies `state` into the
end state and never stores `newToolId` (its own comment reads: in a real
implementation endState would have newToolId set). -/
def ToolpathMove.toolChange (state : ToolpathState) (newToolId : String) : ToolpathMove :=
  let _ := newToolId
  let endState := state
  ⟨MoveType.ToolChange, state, endState, none, 0, false⟩

/-- Factory `ToolpathMove::spindleStart`: likewise copies `state` unchanged
into the end state. -/
def ToolpathMove.spindleStart (state : ToolpathState) (rpm : ℝ) : ToolpathMove :=
  let _ := rpm
  let endState := state
  ⟨MoveType.SpindleStart, state, endState, none, 0, false⟩

/-- Factory `ToolpathMove::spindleStop`. -/
def ToolpathMove.spindleStop (state : ToolpathState) : ToolpathMove :=
  let endState := state
  ⟨MoveType.SpindleStop, state, endState, none, 0, false⟩

/-- Embeds `ToolpathMove::isValid`: states finite (vacuous here), feedrate
present for cutting motions, arc center present for arcs, and rapids must be
flagged rapid-allowed. -/
def ToolpathMove.isValid (m : ToolpathMove) : Prop :=
  m.startState.isValid ∧ m.endState.isValid ∧
  (requiresFeedrate m.moveType → m.endState.hasFeedRate) ∧
  (isArcMove m.moveType → m.arcCenter.isSome) ∧
  ¬ (m.moveType = MoveType.Rapid ∧ m.rapidAllowed = false)

/-- Embeds `ToolpathMove::isZeroLength`: control moves are never zero length;
motion moves are zero length when the squared start-to-end distance is below
`1e-12`. -/
def ToolpathMove.isZeroLength (m : ToolpathMove) : Prop :=
  if m.moveType = MoveType.Dwell ∨ m.moveType = MoveType.ToolChange ∨
      m.moveType = MoveType.SpindleStart ∨ m.moveType = MoveType.SpindleStop then
    False
  else
    (m.endState.position.sub m.startState.position).lengthSquared < 1e-12

/-- Embeds `cnc::Toolpath` (src/core/toolpath/Toolpath.h): the append-only
ordered sequence of moves. The derived tool-usage histogram maintained by
`appendMove` is not consulted by the validator and is omitted. -/
structure Toolpath where
  id : String
  machineId : String
  moves : List ToolpathMove

/-- Embeds `Toolpath::appendMove` (restricted to the move list). -/
def Toolpath.appendMove (tp : Toolpath) (m : ToolpathMove) : Toolpath :=
  ⟨tp.id, tp.machineId, tp.moves ++ [m]⟩

/-- Embeds `Toolpath::isEmpty`. -/
def Toolpath.isEmpty (tp : Toolpath) : Prop := tp.moves = []

/-! ## Toolpath validator (src/core/toolpath/ToolpathValidator.h)

The source reports failures by throwing `std::logic_error` with a message
naming the offending move index and values. Each throw site is embedded as a
`ValidationError` constructor carrying that index; a check returns `none`
when it passes. -/

/-- One validation failure, labelled by its throw site and the offending
move index. -/
inductive ValidationError where
  | invalidMove (index : ℕ)
  | zeroLength (index : ℕ)
  | missingFeedrate (index : ℕ)
  | arcNoCenter (index : ℕ)
  | arcInconsistentRadius (index : ℕ)
  | arcZeroRadius (index : ℕ)
  | rapidNotAllowed (index : ℕ)
  | discontinuity (index : ℕ)
  | toolChangeNoTool (index : ℕ)
  | cuttingNoTool (index : ℕ)
deriving DecidableEq

/-- The move index named by a validation error. -/
def ValidationError.index : ValidationError → ℕ
  | .invalidMove i => i
  | .zeroLength i => i
  | .missingFeedrate i => i
  | .arcNoCenter i => i
  | .arcInconsistentRadius i => i
  | .arcZeroRadius i => i
  | .rapidNotAllowed i => i
  | .discontinuity i => i
  | .toolChangeNoTool i => i
  | .cuttingNoTool i => i

open scoped Classical in
/-- Embeds `ToolpathValidator::validateArc`: requires a recorded center,
start/end radii equal within `1e-6` absolute, and a start radius of at least
`1e-9` (zero-radius arcs are invalid). -/
noncomputable def ToolpathValidator.validateArc (m : ToolpathMove) (index : ℕ) :
    Option ValidationError :=
  match m.arcCenter with
  | none => some (.arcNoCenter index)
  | some center =>
    let startRadius := (m.startState.position.sub center).length
    let endRadius := (m.endState.position.sub center).length
    if |startRadius - endRadius| > 1e-6 then some (.arcInconsistentRadius index)
    else if startRadius < 1e-9 then some (.arcZeroRadius index)
    else none

/-- Sequencing of two checks: the first error wins, mirroring the source's
sequential throw sites. -/
def ToolpathValidator.seqCheck (a b : Option ValidationError) :
    Option ValidationError :=
  match a with
  | some e => some e
  | none => b

theorem ToolpathValidator.seqCheck_some (e : ValidationError)
    (b : Option ValidationError) :
    ToolpathValidator.seqCheck (some e) b = some e := rfl

theorem ToolpathValidator.seqCheck_none (b : Option ValidationError) :
    ToolpathValidator.seqCheck none b = b := rfl

open scoped Classical in
/-- Embeds `ToolpathValidator::validateMove`: move validity, the zero-length
check (control moves exempt), the feedrate requirement for cutting motions,
arc geometry, and the rapid-allowed safety flag, in source order. -/
noncomputable def ToolpathValidator.validateMove (m : ToolpathMove) (index : ℕ) :
    Option ValidationError :=
  if ¬ m.isValid then some (.invalidMove index)
  else if m.isZeroLength ∧ m.moveType ≠ MoveType.Dwell ∧
      m.moveType ≠ MoveType.ToolChange ∧ m.moveType ≠ MoveType.SpindleStart ∧
      m.moveType ≠ MoveType.SpindleStop then some (.zeroLength index)
  else if requiresFeedrate m.moveType ∧ ¬ m.endState.hasFeedRate then
    some (.missingFeedrate index)
  else ToolpathValidator.seqCheck
    (if isArcMove m.moveType then ToolpathValidator.validateArc m index else none)
    (if m.moveType = MoveType.Rapid ∧ ¬ m.rapidAllowed then
      some (.rapidNotAllowed index)
    else none)

open scoped Classical in
/-- Embeds `ToolpathValidator::validateContinuity`: the distance between the
first move's end position and the next move's start position must not exceed
`1e-6`. -/
noncomputable def ToolpathValidator.validateContinuity (m1 m2 : ToolpathMove)
    (index1 : ℕ) : Option ValidationError :=
  let distance := (m1.endState.position.sub m2.startState.position).length
  if distance > 1e-6 then some (.discontinuity index1) else none

/-- The walk of `ToolpathValidator::validate` from a starting index: per move
the per-move checks, then (when a successor exists) the continuity check with
it. The source's machine-limit and tool-consistency checks run only when a
machine is supplied; `validate` below models the default `machine = nullptr`
call, which skips them. -/
noncomputable def ToolpathValidator.validateFrom :
    List ToolpathMove → ℕ → Option ValidationError
  | [], _ => none
  | m :: rest, i =>
    ToolpathValidator.seqCheck (ToolpathValidator.validateMove m i)
      (match rest with
       | [] => none
       | m2 :: _ =>
         ToolpathValidator.seqCheck (ToolpathValidator.validateContinuity m m2 i)
           (ToolpathValidator.validateFrom rest (i + 1)))

theorem ToolpathValidator.validateFrom_nil (i : ℕ) :
    ToolpathValidator.validateFrom [] i = none := rfl

theorem ToolpathValidator.validateFrom_single (m : ToolpathMove) (i : ℕ) :
    ToolpathValidator.validateFrom [m] i
      = ToolpathValidator.seqCheck (ToolpathValidator.validateMove m i) none := rfl

theorem ToolpathValidator.validateFrom_cons_cons (m m2 : ToolpathMove)
    (rest2 : List ToolpathMove) (i : ℕ) :
    ToolpathValidator.validateFrom (m :: m2 :: rest2) i
      = ToolpathValidator.seqCheck (ToolpathValidator.validateMove m i)
          (ToolpathValidator.seqCheck (ToolpathValidator.validateContinuity m m2 i)
            (ToolpathValidator.validateFrom (m2 :: rest2) (i + 1))) := rfl

open scoped Classical in
/-- Embeds `ToolpathValidator::validate` with the default null machine: an
empty toolpath is valid, otherwise walk the moves from index 0. -/
noncomputable def ToolpathValidator.validate (tp : Toolpath) : Option ValidationError :=
  if tp.isEmpty then none else ToolpathValidator.validateFrom tp.moves 0

/-- One step of `ToolpathValidator::validateToolConsistency`: a tool-change
move must carry a non-empty end-state tool id, and a cutting motion must have
an active tool. -/
def ToolpathValidator.toolCheckMove (m : ToolpathMove) (i : ℕ) :
    Option ValidationError :=
  if m.moveType = MoveType.ToolChange ∧ m.endState.activeToolId = "" then
    some (.toolChangeNoTool i)
  else if isCuttingMove m.moveType ∧ m.endState.activeToolId = "" then
    some (.cuttingNoTool i)
  else none

/-- The walk of `ToolpathValidator::validateToolConsistency` over the moves.
The `currentToolId` variable the source maintains never influences whether a
check throws, so it is not carried. -/
def ToolpathValidator.validateToolConsistencyFrom :
    List ToolpathMove → ℕ → Option ValidationError
  | [], _ => none
  | m :: rest, i =>
    ToolpathValidator.seqCheck (ToolpathValidator.toolCheckMove m i)
      (ToolpathValidator.validateToolConsistencyFrom rest (i + 1))

/-- Embeds `ToolpathValidator::validateToolConsistency` (the supplied machine
argument is never read by the source body). -/
def ToolpathValidator.validateToolConsistency (tp : Toolpath) :
    Option ValidationError :=
  ToolpathValidator.validateToolConsistencyFrom tp.moves 0

theorem ToolpathValidator.validateToolConsistencyFrom_cons (m : ToolpathMove)
    (rest : List ToolpathMove) (i : ℕ) :
    ToolpathValidator.validateToolConsistencyFrom (m :: rest) i
      = ToolpathValidator.seqCheck (ToolpathValidator.toolCheckMove m i)
          (ToolpathValidator.validateToolConsistencyFrom rest (i + 1)) := rfl

/-- The source compares `sqrt(lengthSquared) > 1e-6`; over the reals this is
equivalent to comparing the squared length with `1e-12`. -/
theorem Vec3.length_gt_iff (v : Vec3) (c : ℝ) (hc : 0 ≤ c) :
    v.length > c ↔ v.lengthSquared > c ^ 2 := by
  unfold Vec3.length
  exact Real.lt_sqrt hc

/-- A continuity check passes exactly when the gap distance is at most 1e-6. -/
theorem ToolpathValidator.validateContinuity_eq_none_iff (m1 m2 : ToolpathMove)
    (i : ℕ) :
    ToolpathValidator.validateContinuity m1 m2 i = none ↔
      (m1.endState.position.sub m2.startState.position).length ≤ 1e-6 := by
  unfold ToolpathValidator.validateContinuity
  by_cases h : (m1.endState.position.sub m2.startState.position).length > 1e-6
  · simp only [if_pos h]
    constructor
    · intro hcontra; exact absurd hcontra (by simp)
    · intro hle; linarith
  · simp only [if_neg h]
    constructor
    · intro _; exact not_lt.mp h
    · intro _; trivial

/-- A continuity check fails — with the error naming exactly the first
move's index — precisely when the gap distance exceeds 1e-6. -/
theorem ToolpathValidator.validateContinuity_eq_some_iff (m1 m2 : ToolpathMove)
    (i : ℕ) :
    ToolpathValidator.validateContinuity m1 m2 i
        = some (ValidationError.discontinuity i) ↔
      (m1.endState.position.sub m2.startState.position).length > 1e-6 := by
  unfold ToolpathValidator.validateContinuity
  by_cases h : (m1.endState.position.sub m2.startState.position).length > 1e-6
  · simp only [if_pos h]; exact ⟨fun _ => h, fun _ => by trivial⟩
  · simp only [if_neg h]
    constructor
    · intro hcontra; exact absurd hcontra (by simp)
    · intro hgt; exact absurd hgt h

/-- If the validation walk reports no error, every adjacent pair satisfies
the continuity bound. -/
theorem ToolpathValidator.validateFrom_none_continuity :
    ∀ (l : List ToolpathMove) (b : ℕ),
      ToolpathValidator.validateFrom l b = none →
      ∀ (j : ℕ) (h : j + 1 < l.length),
        ((l.get ⟨j, Nat.lt_of_succ_lt h⟩).endState.position.sub
          (l.get ⟨j + 1, h⟩).startState.position).length ≤ 1e-6
  | [], _, _, j, h => absurd h (by simp)
  | m :: rest, b, hnone, j, h => by
    cases rest with
    | nil => simp at h
    | cons m2 rest2 =>
      rw [ToolpathValidator.validateFrom_cons_cons] at hnone
      cases hvm : ToolpathValidator.validateMove m b with
      | some e =>
        rw [hvm, ToolpathValidator.seqCheck_some] at hnone
        exact absurd hnone (by simp)
      | none =>
        rw [hvm, ToolpathValidator.seqCheck_none] at hnone
        cases hvc : ToolpathValidator.validateContinuity m m2 b with
        | some e =>
          rw [hvc, ToolpathValidator.seqCheck_some] at hnone
          exact absurd hnone (by simp)
        | none =>
          rw [hvc, ToolpathValidator.seqCheck_none] at hnone
          cases j with
          | zero =>
            simp only [List.get]
            exact (ToolpathValidator.validateContinuity_eq_none_iff m m2 b).mp hvc
          | succ j2 =>
            have hrec := ToolpathValidator.validateFrom_none_continuity
              (m2 :: rest2) (b + 1) hnone j2 (by simpa using h)
            simpa using hrec

/-- If any adjacent pair is discontinuous beyond 1e-6, the walk fails. -/
theorem ToolpathValidator.validateFrom_fails_of_discontinuity
    (l : List ToolpathMove) (b : ℕ) (j : ℕ) (h : j + 1 < l.length)
    (hgap : ((l.get ⟨j, Nat.lt_of_succ_lt h⟩).endState.position.sub
      (l.get ⟨j + 1, h⟩).startState.position).length > 1e-6) :
    ToolpathValidator.validateFrom l b ≠ none := by
  intro hnone
  have := ToolpathValidator.validateFrom_none_continuity l b hnone j h
  linarith

/-- When every per-move check passes and the first continuity violation sits
between moves `j` and `j+1`, the walk reports exactly the discontinuity error
naming index `j` (shifted by the starting index). -/
theorem ToolpathValidator.validateFrom_first_discontinuity :
    ∀ (l : List ToolpathMove) (b : ℕ) (j : ℕ) (h : j + 1 < l.length),
      (∀ (k : ℕ) (hk : k < l.length),
        ToolpathValidator.validateMove (l.get ⟨k, hk⟩) (b + k) = none) →
      (∀ (k : ℕ) (hk : k + 1 < l.length), k < j →
        ((l.get ⟨k, Nat.lt_of_succ_lt hk⟩).endState.position.sub
          (l.get ⟨k + 1, hk⟩).startState.position).length ≤ 1e-6) →
      ((l.get ⟨j, Nat.lt_of_succ_lt h⟩).endState.position.sub
        (l.get ⟨j + 1, h⟩).startState.position).length > 1e-6 →
      ToolpathValidator.validateFrom l b
        = some (ValidationError.discontinuity (b + j))
  | [], _, j, h, _, _, _ => absurd h (by simp)
  | m :: rest, b, j, h, hmoves, hbefore, hgap => by
    have hm0 : ToolpathValidator.validateMove m b = none := by
      have := hmoves 0 (by simp)
      simpa using this
    cases rest with
    | nil => simp at h
    | cons m2 rest2 =>
      rw [ToolpathValidator.validateFrom_cons_cons, hm0,
        ToolpathValidator.seqCheck_none]
      cases j with
      | zero =>
        have hsome : ToolpathValidator.validateContinuity m m2 b
            = some (ValidationError.discontinuity b) :=
          (ToolpathValidator.validateContinuity_eq_some_iff m m2 b).mpr
            (by simpa using hgap)
        rw [hsome, ToolpathValidator.seqCheck_some]
        simp
      | succ j2 =>
        have hc0 : ToolpathValidator.validateContinuity m m2 b = none := by
          apply (ToolpathValidator.validateContinuity_eq_none_iff m m2 b).mpr
          have := hbefore 0 (by simp) (Nat.succ_pos j2)
          simpa using this
        rw [hc0, ToolpathValidator.seqCheck_none]
        have hrec := ToolpathValidator.validateFrom_first_discontinuity
          (m2 :: rest2) (b + 1) j2 (by simpa using h)
          (fun k hk => by
            have := hmoves (k + 1) (by simpa using hk)
            simpa [Nat.add_assoc, Nat.add_comm 1 k] using this)
          (fun k hk hkj => by
            have := hbefore (k + 1) (by simpa using hk) (by omega)
            simpa using this)
          (by simpa using hgap)
        have harith : b + 1 + j2 = b + (j2 + 1) := by omega
        rw [hrec, harith]

/-- C4. Toolpath continuity validation: (i) the continuity check between
moves `i` and `i+1` fails, with an error naming exactly index `i`, precisely
when the end-to-start distance exceeds 1e-6; (ii) whenever some adjacent pair
of a toolpath is discontinuous beyond 1e-6, full validation fails, and if
additionally every per-move check passes and `i` is the first discontinuity,
validation reports exactly the discontinuity error naming index `i`;
(iii) every toolpath whose moves are sequentially chained (each move starts
at the end state of its predecessor) passes the continuity check at every
index. -/
theorem toolpath_continuity_validation :
    (∀ (m1 m2 : ToolpathMove) (i : ℕ),
      (ToolpathValidator.validateContinuity m1 m2 i
          = some (ValidationError.discontinuity i) ↔
        (m1.endState.position.sub m2.startState.position).length > 1e-6) ∧
      (ValidationError.discontinuity i).index = i) ∧
    (∀ (tp : Toolpath) (j : ℕ) (h : j + 1 < tp.moves.length),
      ((tp.moves.get ⟨j, Nat.lt_of_succ_lt h⟩).endState.position.sub
        (tp.moves.get ⟨j + 1, h⟩).startState.position).length > 1e-6 →
      ToolpathValidator.validate tp ≠ none) ∧
    (∀ (tp : Toolpath) (j : ℕ) (h : j + 1 < tp.moves.length),
      (∀ (k : ℕ) (hk : k < tp.moves.length),
        ToolpathValidator.validateMove (tp.moves.get ⟨k, hk⟩) k = none) →
      (∀ (k : ℕ) (hk : k + 1 < tp.moves.length), k < j →
        ((tp.moves.get ⟨k, Nat.lt_of_succ_lt hk⟩).endState.position.sub
          (tp.moves.get ⟨k + 1, hk⟩).startState.position).length ≤ 1e-6) →
      ((tp.moves.get ⟨j, Nat.lt_of_succ_lt h⟩).endState.position.sub
        (tp.moves.get ⟨j + 1, h⟩).startState.position).length > 1e-6 →
      ToolpathValidator.validate tp = some (ValidationError.discontinuity j)) ∧
    (∀ (tp : Toolpath),
      List.Chain' (fun a b => b.startState = a.endState) tp.moves →
      ∀ (j : ℕ) (h : j + 1 < tp.moves.length),
        ToolpathValidator.validateContinuity (tp.moves.get ⟨j, Nat.lt_of_succ_lt h⟩)
          (tp.moves.get ⟨j + 1, h⟩) j = none) := by
  refine ⟨?_, ?_, ?_, ?_⟩
  · intro m1 m2 i
    exact ⟨ToolpathValidator.validateContinuity_eq_some_iff m1 m2 i, rfl⟩
  · intro tp j h hgap
    have hne : ¬ tp.isEmpty := by
      unfold Toolpath.isEmpty
      intro hempty
      rw [hempty] at h
      simp at h
    unfold ToolpathValidator.validate
    rw [if_neg hne]
    exact ToolpathValidator.validateFrom_fails_of_discontinuity tp.moves 0 j h hgap
  · intro tp j h hmoves hbefore hgap
    have hne : ¬ tp.isEmpty := by
      unfold Toolpath.isEmpty
      intro hempty
      rw [hempty] at h
      simp at h
    unfold ToolpathValidator.validate
    rw [if_neg hne]
    have := ToolpathValidator.validateFrom_first_discontinuity tp.moves 0 j h
      (fun k hk => by simpa using hmoves k hk) hbefore hgap
    simpa using this
  · intro tp hchain j h
    have hadj := List.chain'_iff_get.mp hchain j (by omega)
    apply (ToolpathValidator.validateContinuity_eq_none_iff _ _ _).mpr
    have hpos : (tp.moves.get ⟨j + 1, h⟩).startState.position
        = (tp.moves.get ⟨j, Nat.lt_of_succ_lt h⟩).endState.position := by
      rw [hadj]
    rw [hpos]
    have hzero : ((tp.moves.get ⟨j, Nat.lt_of_succ_lt h⟩).endState.position.sub
        (tp.moves.get ⟨j, Nat.lt_of_succ_lt h⟩).endState.position).lengthSquared = 0 := by
      simp [Vec3.sub, Vec3.lengthSquared]
    unfold Vec3.length
    rw [hzero, Real.sqrt_zero]
    norm_num

/-! ### Test fixtures for witnesses and counterexamples -/

/-- A simple machine-state snapshot at `(x, 0, 0)` with the given feed rate
and tool id. -/
def stateAt (x feed : ℝ) (tool : String) : ToolpathState :=
  ⟨⟨x, 0, 0⟩, ⟨0, 0, 0⟩, feed, 0, tool, CoolantState.Off, CoordinateMode.Absolute⟩

/-- Witness for C4 at concrete toolpaths: a two-move toolpath chained through
`(1,0,0)` passes the continuity check at index 0, and a toolpath with a gap
of 4 units between move 0 and move 1 fails validation. The proof applies
`toolpath_continuity_validation`, discharging its hypotheses by evaluation. -/
theorem toolpath_continuity_validation_witness :
    ToolpathValidator.validateContinuity
        (ToolpathMove.linear (stateAt 0 1 "T1") (stateAt 1 1 "T1"))
        (ToolpathMove.linear (stateAt 1 1 "T1") (stateAt 2 1 "T1")) 0 = none ∧
    ToolpathValidator.validate
        ⟨"tp", "m", [ToolpathMove.linear (stateAt 0 1 "T1") (stateAt 1 1 "T1"),
          ToolpathMove.linear (stateAt 5 1 "T1") (stateAt 6 1 "T1")]⟩ ≠ none := by
  constructor
  · have hchain : List.Chain' (fun a b : ToolpathMove => b.startState = a.endState)
        [ToolpathMove.linear (stateAt 0 1 "T1") (stateAt 1 1 "T1"),
         ToolpathMove.linear (stateAt 1 1 "T1") (stateAt 2 1 "T1")] :=
      List.chain'_cons.mpr ⟨rfl, List.chain'_singleton _⟩
    exact toolpath_continuity_validation.2.2.2
      ⟨"tp", "m", _⟩ hchain 0 (by norm_num)
  · apply toolpath_continuity_validation.2.1
      ⟨"tp", "m", _⟩ 0 (by norm_num)
    show (((stateAt 1 1 "T1").position).sub ((stateAt 5 1 "T1").position)).length > 1e-6
    rw [Vec3.length_gt_iff _ _ (by norm_num)]
    show ((1 : ℝ) - 5) * ((1 : ℝ) - 5) + (0 - 0) * (0 - 0) + (0 - 0) * (0 - 0) > _
    norm_num

/-! ### C5: arc validation -/

/-- An arc check passes exactly when the center is recorded, the radii agree
within 1e-6 and the start radius is at least 1e-9. -/
theorem ToolpathValidator.validateArc_none_iff (m : ToolpathMove) (i : ℕ)
    (c : Vec3) (hc : m.arcCenter = some c) :
    ToolpathValidator.validateArc m i = none ↔
      (|(m.startState.position.sub c).length - (m.endState.position.sub c).length|
          ≤ 1e-6 ∧
        1e-9 ≤ (m.startState.position.sub c).length) := by
  unfold ToolpathValidator.validateArc
  rw [hc]
  dsimp only
  by_cases h1 : |(m.startState.position.sub c).length
      - (m.endState.position.sub c).length| > 1e-6
  · rw [if_pos h1]
    constructor
    · intro hcontra; exact absurd hcontra (by simp)
    · intro ⟨hle, _⟩; linarith
  · rw [if_neg h1]
    by_cases h2 : (m.startState.position.sub c).length < 1e-9
    · rw [if_pos h2]
      constructor
      · intro hcontra; exact absurd hcontra (by simp)
      · intro ⟨_, hge⟩; linarith
    · rw [if_neg h2]
      exact ⟨fun _ => ⟨not_lt.mp h1, not_lt.mp h2⟩, fun _ => rfl⟩

/-- If the full per-move check passes on an arc move, the arc sub-check
passed. -/
theorem ToolpathValidator.validateMove_none_arc {m : ToolpathMove} {i : ℕ}
    (h : ToolpathValidator.validateMove m i = none)
    (harc : isArcMove m.moveType) :
    ToolpathValidator.validateArc m i = none := by
  unfold ToolpathValidator.validateMove at h
  by_cases h1 : ¬ m.isValid
  · rw [if_pos h1] at h; exact absurd h (by simp)
  · rw [if_neg h1] at h
    by_cases h2 : m.isZeroLength ∧ m.moveType ≠ MoveType.Dwell ∧
        m.moveType ≠ MoveType.ToolChange ∧ m.moveType ≠ MoveType.SpindleStart ∧
        m.moveType ≠ MoveType.SpindleStop
    · rw [if_pos h2] at h; exact absurd h (by simp)
    · rw [if_neg h2] at h
      by_cases h3 : requiresFeedrate m.moveType ∧ ¬ m.endState.hasFeedRate
      · rw [if_pos h3] at h; exact absurd h (by simp)
      · rw [if_neg h3, if_pos harc] at h
        cases hacheck : ToolpathValidator.validateArc m i with
        | none => rfl
        | some e =>
          rw [hacheck, ToolpathValidator.seqCheck_some] at h
          exact absurd h (by simp)

/-- An arc move's type is never one of the control or rapid kinds. -/
theorem isArcMove_cases {t : MoveType} (h : isArcMove t) :
    t = MoveType.ArcCW ∨ t = MoveType.ArcCCW := h

/-- C5 (amended). Arc validation: an arc move whose start/end radii (to the
recorded center) differ by more than 1e-6 fails move validation, as does one
whose start radius is below 1e-9; and an arc move with equal radii of at
least 1e-9, a positive end-state feed rate, and a start-to-end squared
distance of at least 1e-12 (so that the zero-length check does not fire)
passes move validation. -/
theorem arc_validation_amended :
    (∀ (m : ToolpathMove) (i : ℕ) (c : Vec3), isArcMove m.moveType →
      m.arcCenter = some c →
      |(m.startState.position.sub c).length
        - (m.endState.position.sub c).length| > 1e-6 →
      ToolpathValidator.validateMove m i ≠ none) ∧
    (∀ (m : ToolpathMove) (i : ℕ) (c : Vec3), isArcMove m.moveType →
      m.arcCenter = some c →
      (m.startState.position.sub c).length < 1e-9 →
      ToolpathValidator.validateMove m i ≠ none) ∧
    (∀ (m : ToolpathMove) (i : ℕ) (c : Vec3), isArcMove m.moveType →
      m.arcCenter = some c →
      (m.startState.position.sub c).length = (m.endState.position.sub c).length →
      1e-9 ≤ (m.startState.position.sub c).length →
      m.endState.hasFeedRate →
      1e-12 ≤ (m.endState.position.sub m.startState.position).lengthSquared →
      ToolpathValidator.validateMove m i = none) := by
  refine ⟨?_, ?_, ?_⟩
  · intro m i c harc hc hgap hnone
    have := ToolpathValidator.validateMove_none_arc hnone harc
    have hiff := (ToolpathValidator.validateArc_none_iff m i c hc).mp this
    linarith [hiff.1]
  · intro m i c harc hc hsmall hnone
    have := ToolpathValidator.validateMove_none_arc hnone harc
    have hiff := (ToolpathValidator.validateArc_none_iff m i c hc).mp this
    linarith [hiff.2]
  · intro m i c harc hc hradii hge hfeed hlen
    have hnotrapid : m.moveType ≠ MoveType.Rapid := by
      rcases isArcMove_cases harc with h | h <;> rw [h] <;> intro hcontra <;>
        exact absurd hcontra (by simp)
    have hnotcontrol : m.moveType ≠ MoveType.Dwell ∧
        m.moveType ≠ MoveType.ToolChange ∧ m.moveType ≠ MoveType.SpindleStart ∧
        m.moveType ≠ MoveType.SpindleStop := by
      rcases isArcMove_cases harc with h | h <;> rw [h] <;>
        exact ⟨by simp, by simp, by simp, by simp⟩
    have hvalid : m.isValid := by
      refine ⟨trivial, trivial, fun _ => hfeed, fun _ => ?_, ?_⟩
      · rw [hc]; rfl
      · intro ⟨hr, _⟩; exact hnotrapid hr
    have hnotzero : ¬ m.isZeroLength := by
      unfold ToolpathMove.isZeroLength
      rw [if_neg (by
        intro hcases
        rcases hcases with h | h | h | h
        · exact hnotcontrol.1 h
        · exact hnotcontrol.2.1 h
        · exact hnotcontrol.2.2.1 h
        · exact hnotcontrol.2.2.2 h)]
      intro hlt
      linarith
    unfold ToolpathValidator.validateMove
    rw [if_neg (by intro hcontra; exact hcontra hvalid)]
    rw [if_neg (by intro hcontra; exact hnotzero hcontra.1)]
    rw [if_neg (by intro hcontra; exact hcontra.2 hfeed)]
    rw [if_pos harc]
    have harcnone : ToolpathValidator.validateArc m i = none :=
      (ToolpathValidator.validateArc_none_iff m i c hc).mpr
        ⟨by rw [hradii]; simp only [sub_self, abs_zero]; norm_num, hge⟩
    rw [harcnone, ToolpathValidator.seqCheck_none,
      if_neg (by intro hcontra; exact hnotrapid hcontra.1)]

/-- C5 counterexample: the degenerate arc whose start state, end state and
center all sit at the origin with feed rate 1 has exactly equal start/end
radii and a positive feed rate, yet fails move validation (zero length) and
also fails the arc sub-check (zero radius). This refutes the claim that an
arc move with equal radii and feedrate > 0 passes validation. -/
theorem arc_validation_counterexample :
    ((stateAt 0 1 "T1").position.sub (Vec3.mk 0 0 0)).length
        = ((stateAt 0 1 "T1").position.sub (Vec3.mk 0 0 0)).length ∧
    (0 : ℝ) < (stateAt 0 1 "T1").feedRate ∧
    ToolpathValidator.validateMove
        (ToolpathMove.arc MoveType.ArcCW (stateAt 0 1 "T1") (stateAt 0 1 "T1")
          (Vec3.mk 0 0 0)) 0
      = some (ValidationError.zeroLength 0) ∧
    ToolpathValidator.validateArc
        (ToolpathMove.arc MoveType.ArcCW (stateAt 0 1 "T1") (stateAt 0 1 "T1")
          (Vec3.mk 0 0 0)) 0
      = some (ValidationError.arcZeroRadius 0) := by
  refine ⟨rfl, by norm_num [stateAt], ?_, ?_⟩
  · have hvalid : (ToolpathMove.arc MoveType.ArcCW (stateAt 0 1 "T1")
        (stateAt 0 1 "T1") (Vec3.mk 0 0 0)).isValid := by
      refine ⟨trivial, trivial, fun _ => ?_, fun _ => rfl, ?_⟩
      · show (0 : ℝ) < 1; norm_num
      · intro ⟨hr, _⟩; exact absurd hr (by simp [ToolpathMove.arc])
    have hzero : (ToolpathMove.arc MoveType.ArcCW (stateAt 0 1 "T1")
        (stateAt 0 1 "T1") (Vec3.mk 0 0 0)).isZeroLength := by
      unfold ToolpathMove.isZeroLength
      rw [if_neg (by simp [ToolpathMove.arc])]
      show ((stateAt 0 1 "T1").position.sub (stateAt 0 1 "T1").position).lengthSquared
        < 1e-12
      simp [stateAt, Vec3.sub, Vec3.lengthSquared]
      norm_num
    unfold ToolpathValidator.validateMove
    rw [if_neg (by intro hcontra; exact hcontra hvalid)]
    rw [if_pos ⟨hzero, by simp [ToolpathMove.arc], by simp [ToolpathMove.arc],
      by simp [ToolpathMove.arc], by simp [ToolpathMove.arc]⟩]
  · unfold ToolpathValidator.validateArc
    dsimp only [ToolpathMove.arc, stateAt]
    have hlen0 : ((Vec3.mk 0 0 0).sub (Vec3.mk 0 0 0)).length = 0 := by
      unfold Vec3.length
      rw [show ((Vec3.mk 0 0 0).sub (Vec3.mk 0 0 0)).lengthSquared = 0 by
        simp [Vec3.sub, Vec3.lengthSquared]]
      exact Real.sqrt_zero
    rw [hlen0]
    rw [if_neg (by norm_num), if_pos (by norm_num)]

/-! ### C9: tool-change moves ignore the requested tool id -/

/-- If some move of the list is a tool change with an empty end-state tool
id, the tool-consistency walk reports an error. -/
theorem ToolpathValidator.validateToolConsistencyFrom_fails_of_mem :
    ∀ (l : List ToolpathMove) (b : ℕ) (m : ToolpathMove), m ∈ l →
      m.moveType = MoveType.ToolChange → m.endState.activeToolId = "" →
      ToolpathValidator.validateToolConsistencyFrom l b ≠ none
  | [], _, m, hm, _, _ => absurd hm (by simp)
  | mh :: rest, b, m, hm, hty, hid => by
    rw [ToolpathValidator.validateToolConsistencyFrom_cons]
    rcases List.mem_cons.mp hm with heq | hmem
    · subst heq
      have hcheck : ToolpathValidator.toolCheckMove m b
          = some (ValidationError.toolChangeNoTool b) := by
        unfold ToolpathValidator.toolCheckMove
        rw [if_pos ⟨hty, hid⟩]
      rw [hcheck, ToolpathValidator.seqCheck_some]
      simp
    · cases hck : ToolpathValidator.toolCheckMove mh b with
      | some e => rw [ToolpathValidator.seqCheck_some]; simp
      | none =>
        rw [ToolpathValidator.seqCheck_none]
        exact ToolpathValidator.validateToolConsistencyFrom_fails_of_mem rest
          (b + 1) m hmem hty hid

/-- C9. `ToolpathMove::toolChange(s, n)` returns a move whose end state is
exactly `s`: the `newToolId` argument is never stored, so the end-state
active tool id is `s`'s tool id; consequently any toolpath containing a
tool-change move built from a state with an empty active tool id fails
tool-consistency validation. -/
theorem toolchange_ignores_new_tool_id (st : ToolpathState) (n : String) :
    (ToolpathMove.toolChange st n).endState = st ∧
    (ToolpathMove.toolChange st n).startState = st ∧
    (ToolpathMove.toolChange st n).endState.activeToolId = st.activeToolId ∧
    (st.activeToolId = "" → ∀ tp : Toolpath,
      ToolpathMove.toolChange st n ∈ tp.moves →
      ToolpathValidator.validateToolConsistency tp ≠ none) := by
  refine ⟨rfl, rfl, rfl, ?_⟩
  intro hid tp hmem
  exact ToolpathValidator.validateToolConsistencyFrom_fails_of_mem tp.moves 0
    (ToolpathMove.toolChange st n) hmem rfl hid

/-- Witness for C9 at a concrete state with empty tool id and the singleton
toolpath holding its tool-change move. -/
theorem toolchange_ignores_new_tool_id_witness :
    (ToolpathMove.toolChange (stateAt 0 0 "") "T2").endState = stateAt 0 0 "" ∧
    ToolpathValidator.validateToolConsistency
      ⟨"tp", "m", [ToolpathMove.toolChange (stateAt 0 0 "") "T2"]⟩ ≠ none :=
  ⟨(toolchange_ignores_new_tool_id (stateAt 0 0 "") "T2").1,
   (toolchange_ignores_new_tool_id (stateAt 0 0 "") "T2").2.2.2 rfl
     ⟨"tp", "m", [ToolpathMove.toolChange (stateAt 0 0 "") "T2"]⟩
     (List.mem_singleton.mpr rfl)⟩

/-- Witness for C5 (amended) at a concrete valid arc: a CW half-circle of
radius 1 around the origin from `(1,0,0)` to `(-1,0,0)` with feed rate 1
passes move validation. -/
theorem arc_validation_amended_witness :
    ToolpathValidator.validateMove
      (ToolpathMove.arc MoveType.ArcCW (stateAt 1 1 "T1") (stateAt (-1) 1 "T1")
        (Vec3.mk 0 0 0)) 0 = none := by
  have hstartsq : ((stateAt 1 1 "T1").position.sub (Vec3.mk 0 0 0)).lengthSquared
      = 1 := by
    simp [stateAt, Vec3.sub, Vec3.lengthSquared]
  have hstart : ((stateAt 1 1 "T1").position.sub (Vec3.mk 0 0 0)).length = 1 := by
    unfold Vec3.length; rw [hstartsq]; exact Real.sqrt_one
  have hendsq : ((stateAt (-1) 1 "T1").position.sub (Vec3.mk 0 0 0)).lengthSquared
      = 1 := by
    simp [stateAt, Vec3.sub, Vec3.lengthSquared]
  have hend : ((stateAt (-1) 1 "T1").position.sub (Vec3.mk 0 0 0)).length = 1 := by
    unfold Vec3.length; rw [hendsq]; exact Real.sqrt_one
  apply arc_validation_amended.2.2 _ 0 (Vec3.mk 0 0 0) (Or.inl rfl) rfl
  · show ((stateAt 1 1 "T1").position.sub (Vec3.mk 0 0 0)).length
      = ((stateAt (-1) 1 "T1").position.sub (Vec3.mk 0 0 0)).length
    rw [hstart, hend]
  · show (1e-9 : ℝ) ≤ ((stateAt 1 1 "T1").position.sub (Vec3.mk 0 0 0)).length
    rw [hstart]; norm_num
  · show (0 : ℝ) < 1
    norm_num
  · show (1e-12 : ℝ) ≤ ((stateAt (-1) 1 "T1").position.sub
      (stateAt 1 1 "T1").position).lengthSquared
    rw [show ((stateAt (-1) 1 "T1").position.sub
        (stateAt 1 1 "T1").position).lengthSquared = 4 by
      simp [stateAt, Vec3.sub, Vec3.lengthSquared]; norm_num]
    norm_num

/-! ## Machine kinematics (src/core/machine/MachineKinematics.h,
src/core/machine/Cartesian3Axis.h) -/

/-- Embeds the `std::array<double, 6>` axis-position array indexed by
`cnc::Axis` as named fields `[X, Y, Z, A, B, C]`. -/
@[ext]
structure AxisArray where
  x : ℝ
  y : ℝ
  z : ℝ
  a : ℝ
  b : ℝ
  c : ℝ

/-- Embeds `cnc::ForwardKinematicsResult`. -/
structure ForwardKinematicsResult where
  toolPose : Transform
  axisPositions : AxisArray
  valid : Bool

/-- Embeds `cnc::InverseKinematicsResult`. -/
structure InverseKinematicsResult where
  axisPositions : AxisArray
  toolPose : Transform
  valid : Bool

/-- Embeds `cnc::Cartesian3Axis` (src/core/machine/Cartesian3Axis.h): the
three `[min, max]` travel-limit pairs. -/
structure Cartesian3Axis where
  xLimits : ℝ × ℝ
  yLimits : ℝ × ℝ
  zLimits : ℝ × ℝ

open scoped Classical in
/-- Embeds `Cartesian3Axis::forwardKinematics`: out-of-limit axis positions
yield an invalid default result (the source leaves `axisPositions`
uninitialized there; the model stores zeros — the `valid = false` flag
governs); otherwise the tool position is exactly the axis positions with the
identity orientation. -/
noncomputable def Cartesian3Axis.forwardKinematics (mch : Cartesian3Axis)
    (axisPositions : AxisArray) : ForwardKinematicsResult :=
  if axisPositions.x < mch.xLimits.1 ∨ axisPositions.x > mch.xLimits.2 ∨
      axisPositions.y < mch.yLimits.1 ∨ axisPositions.y > mch.yLimits.2 ∨
      axisPositions.z < mch.zLimits.1 ∨ axisPositions.z > mch.zLimits.2 then
    ⟨Transform.identity, ⟨0, 0, 0, 0, 0, 0⟩, false⟩
  else
    ⟨Transform.make ⟨axisPositions.x, axisPositions.y, axisPositions.z⟩
      Quaternion.identity, axisPositions, true⟩

open scoped Classical in
/-- Embeds `Cartesian3Axis::inverseKinematics`: an out-of-limit target
position is unreachable (empty list); otherwise the single solution sets
`[X,Y,Z]` to the target position and `[A,B,C]` to zero, and is verified by
forward kinematics. -/
noncomputable def Cartesian3Axis.inverseKinematics (mch : Cartesian3Axis)
    (targetPose : Transform) : List InverseKinematicsResult :=
  if targetPose.position.x < mch.xLimits.1 ∨ targetPose.position.x > mch.xLimits.2 ∨
      targetPose.position.y < mch.yLimits.1 ∨ targetPose.position.y > mch.yLimits.2 ∨
      targetPose.position.z < mch.zLimits.1 ∨ targetPose.position.z > mch.zLimits.2 then
    []
  else
    let axes : AxisArray := ⟨targetPose.position.x, targetPose.position.y,
      targetPose.position.z, 0, 0, 0⟩
    let fk := mch.forwardKinematics axes
    [⟨axes, fk.toolPose, fk.valid⟩]

/-- Embeds `Cartesian3Axis::isValid`: each limit pair must be ordered. -/
def Cartesian3Axis.isValid (mch : Cartesian3Axis) : Prop :=
  mch.xLimits.1 < mch.xLimits.2 ∧ mch.yLimits.1 < mch.yLimits.2 ∧
  mch.zLimits.1 < mch.zLimits.2

/-- C6. Cartesian round-trip kinematics: for axis positions within the
configured limits (the unused rotary axes A, B, C have limits `[0, 0]`, so
"within limits" pins them to zero), forward kinematics is valid, inverse
kinematics on the resulting tool pose returns exactly one solution, that
solution is valid and reproduces the axis positions exactly, and running
forward kinematics on it reproduces every axis coordinate of `p` within
1e-9 (in fact exactly). -/
theorem cartesian_roundtrip (mch : Cartesian3Axis) (p : AxisArray)
    (hx1 : mch.xLimits.1 ≤ p.x) (hx2 : p.x ≤ mch.xLimits.2)
    (hy1 : mch.yLimits.1 ≤ p.y) (hy2 : p.y ≤ mch.yLimits.2)
    (hz1 : mch.zLimits.1 ≤ p.z) (hz2 : p.z ≤ mch.zLimits.2)
    (ha : p.a = 0) (hb : p.b = 0) (hcx : p.c = 0) :
    (mch.forwardKinematics p).valid = true ∧
    ∃ sol : InverseKinematicsResult,
      mch.inverseKinematics (mch.forwardKinematics p).toolPose = [sol] ∧
      sol.valid = true ∧
      sol.axisPositions = p ∧
      (mch.forwardKinematics sol.axisPositions).valid = true ∧
      (mch.forwardKinematics sol.axisPositions).axisPositions = p ∧
      |(mch.forwardKinematics sol.axisPositions).axisPositions.x - p.x| ≤ 1e-9 ∧
      |(mch.forwardKinematics sol.axisPositions).axisPositions.y - p.y| ≤ 1e-9 ∧
      |(mch.forwardKinematics sol.axisPositions).axisPositions.z - p.z| ≤ 1e-9 ∧
      |(mch.forwardKinematics sol.axisPositions).axisPositions.a - p.a| ≤ 1e-9 ∧
      |(mch.forwardKinematics sol.axisPositions).axisPositions.b - p.b| ≤ 1e-9 ∧
      |(mch.forwardKinematics sol.axisPositions).axisPositions.c - p.c| ≤ 1e-9 := by
  have hcond : ¬ (p.x < mch.xLimits.1 ∨ p.x > mch.xLimits.2 ∨
      p.y < mch.yLimits.1 ∨ p.y > mch.yLimits.2 ∨
      p.z < mch.zLimits.1 ∨ p.z > mch.zLimits.2) := by
    push_neg
    exact ⟨hx1, hx2, hy1, hy2, hz1, hz2⟩
  have hfk : mch.forwardKinematics p
      = ⟨Transform.make ⟨p.x, p.y, p.z⟩ Quaternion.identity, p, true⟩ := by
    unfold Cartesian3Axis.forwardKinematics
    rw [if_neg hcond]
  have hpose : (mch.forwardKinematics p).toolPose.position = ⟨p.x, p.y, p.z⟩ := by
    rw [hfk]
    rfl
  have haxes : (⟨p.x, p.y, p.z, 0, 0, 0⟩ : AxisArray) = p := by
    ext
    · rfl
    · rfl
    · rfl
    · exact ha.symm
    · exact hb.symm
    · exact hcx.symm
  have hik : mch.inverseKinematics (mch.forwardKinematics p).toolPose
      = [⟨p, (mch.forwardKinematics p).toolPose, true⟩] := by
    unfold Cartesian3Axis.inverseKinematics
    rw [hpose]
    dsimp only
    rw [if_neg hcond, haxes, hfk]
  refine ⟨by rw [hfk], ⟨p, (mch.forwardKinematics p).toolPose, true⟩, hik, rfl, rfl,
    by rw [hfk], by rw [hfk], ?_, ?_, ?_, ?_, ?_, ?_⟩ <;>
    (rw [hfk]; simp; norm_num)

/-- Witness for C6 at the default travel limits and the axis position
`(1, 2, 3, 0, 0, 0)`. -/
theorem cartesian_roundtrip_witness :
    ((Cartesian3Axis.mk (-1000, 1000) (-1000, 1000) (-100, 100)).forwardKinematics
        ⟨1, 2, 3, 0, 0, 0⟩).valid = true ∧
    ∃ sol : InverseKinematicsResult,
      (Cartesian3Axis.mk (-1000, 1000) (-1000, 1000) (-100, 100)).inverseKinematics
          ((Cartesian3Axis.mk (-1000, 1000) (-1000, 1000) (-100, 100)).forwardKinematics
            ⟨1, 2, 3, 0, 0, 0⟩).toolPose = [sol] ∧
      sol.valid = true ∧
      sol.axisPositions = ⟨1, 2, 3, 0, 0, 0⟩ := by
  have h := cartesian_roundtrip
    (Cartesian3Axis.mk (-1000, 1000) (-1000, 1000) (-100, 100)) ⟨1, 2, 3, 0, 0, 0⟩
    (by norm_num) (by norm_num) (by norm_num) (by norm_num) (by norm_num)
    (by norm_num) rfl rfl rfl
  obtain ⟨hvalid, sol, hik, hsolvalid, hsolaxes, _⟩ := h
  exact ⟨hvalid, sol, hik, hsolvalid, hsolaxes⟩

/-! ## Errors (src/core/common/Error.h) -/

/-- Embeds `cnc::ErrorSeverity`. -/
inductive ErrorSeverity where
  | Info
  | Warning
  | Error
  | Fatal
deriving DecidableEq

/-- Embeds `cnc::ErrorCode`. -/
inductive ErrorCode where
  | Success
  | SimulationInvalidState
  | SimulationOutOfBounds
  | SimulationToolCollision
  | SimulationMaterialError
  | SimulationStepFailed
  | SimulationInvalidTool
  | SimulationInvalidMachine
  | GeometryInvalidTransform
  | GeometryInvalidBounds
  | GeometryInvalidOperation
  | MaterialGridInvalid
  | MaterialGridOutOfBounds
  | MaterialGridResolutionError
  | MachineInvalidPosition
  | MachineKinematicsError
  | MachineLimitExceeded
  | ToolInvalidGeometry
  | ToolInvalidParameters
  | InvalidArgument
  | InvalidState
  | NotImplemented
  | UnknownError
deriving DecidableEq

/-- The numeric value of each `ErrorCode` enumerator, used by the range
comparisons in `Error::make`. -/
def ErrorCode.val : ErrorCode → ℕ
  | .Success => 0
  | .SimulationInvalidState => 1000
  | .SimulationOutOfBounds => 1001
  | .SimulationToolCollision => 1002
  | .SimulationMaterialError => 1003
  | .SimulationStepFailed => 1004
  | .SimulationInvalidTool => 1005
  | .SimulationInvalidMachine => 1006
  | .GeometryInvalidTransform => 2000
  | .GeometryInvalidBounds => 2001
  | .GeometryInvalidOperation => 2002
  | .MaterialGridInvalid => 3000
  | .MaterialGridOutOfBounds => 3001
  | .MaterialGridResolutionError => 3002
  | .MachineInvalidPosition => 4000
  | .MachineKinematicsError => 4001
  | .MachineLimitExceeded => 4002
  | .ToolInvalidGeometry => 5000
  | .ToolInvalidParameters => 5001
  | .InvalidArgument => 9000
  | .InvalidState => 9001
  | .NotImplemented => 9002
  | .UnknownError => 9999

/-- Embeds `cnc::Error`: structured error value with code, severity, message
and recoverability flag. -/
structure Error where
  code : ErrorCode
  severity : ErrorSeverity
  message : String
  recoverable : Bool
deriving DecidableEq

/-- The default-constructed success value. -/
def Error.success : Error :=
  ⟨ErrorCode.Success, ErrorSeverity.Info, "", true⟩

/-- Embeds `Error::isSuccess`. -/
def Error.isSuccess (e : Error) : Bool := e.code = ErrorCode.Success

/-- Embeds `Error::isError`. -/
def Error.isError (e : Error) : Bool := ¬ (e.code = ErrorCode.Success)

/-- Embeds `Error::make`: the severity chain assigns `Error` throughout
except `MachineLimitExceeded`, which is a warning; the enum-range
comparisons of the source are reproduced on the enumerator values. -/
def Error.make (code : ErrorCode) (message : String) (recoverable : Bool) : Error :=
  let severity :=
    if 1000 ≤ code.val ∧ code.val ≤ 1006 then ErrorSeverity.Error
    else if 2000 ≤ code.val ∧ code.val ≤ 2002 then ErrorSeverity.Error
    else if 3000 ≤ code.val ∧ code.val ≤ 3002 then ErrorSeverity.Error
    else if code.val = 4002 then ErrorSeverity.Warning
    else ErrorSeverity.Error
  ⟨code, severity, message, recoverable⟩

theorem Error.make_code (code : ErrorCode) (message : String) (recoverable : Bool) :
    (Error.make code message recoverable).code = code := rfl

theorem Error.make_recoverable (code : ErrorCode) (message : String)
    (recoverable : Bool) :
    (Error.make code message recoverable).recoverable = recoverable := rfl

/-! ## Step results (src/core/sim/StepResult.h) -/

/-- Embeds `cnc::StepResult` with its default member initializers. -/
structure StepResult where
  error : Error
  materialRemovedVolume : ℝ
  collisionDetected : Bool
  toolContact : Bool
  timeDelta : ℝ
  cellsProcessed : ℕ

/-- The default-constructed `StepResult`. -/
def StepResult.default : StepResult :=
  ⟨Error.success, 0, false, false, 0, 0⟩

/-- Embeds `StepResult::isSuccess`: no error AND no collision. -/
def StepResult.isSuccess (r : StepResult) : Bool :=
  r.error.isSuccess && !r.collisionDetected

/-- Embeds `StepResult::hasError`. -/
def StepResult.hasError (r : StepResult) : Bool := r.error.isError

/-- Embeds `StepResult::success`. -/
def StepResult.success (timeDelta : ℝ) : StepResult :=
  { StepResult.default with timeDelta := timeDelta }

/-- Embeds `StepResult::makeError`. -/
def StepResult.makeError (code : ErrorCode) (message : String)
    (recoverable : Bool) : StepResult :=
  { StepResult.default with error := Error.make code message recoverable }

/-- Embeds `StepResult::collision`: sets the collision flag and a
recoverable `SimulationToolCollision` error. -/
def StepResult.collision (message : String) : StepResult :=
  { StepResult.default with
    collisionDetected := true,
    error := Error.make ErrorCode.SimulationToolCollision message true }

/-! ## Deterministic time (src/core/common/Time.h) -/

/-- Embeds `cnc::SimulationTime`: fixed time step, accumulated time and step
count. -/
structure SimulationTime where
  fixedTimeStep : ℝ
  accumulatedTime : ℝ
  stepCount : ℕ

open scoped Classical in
/-- The `SimulationTime` constructor: non-positive steps fall back to
0.001 s. -/
noncomputable def SimulationTime.make (fixedTimeStep : ℝ) : SimulationTime :=
  ⟨if fixedTimeStep > 0 then fixedTimeStep else 0.001, 0, 0⟩

/-- Embeds `SimulationTime::step`. -/
def SimulationTime.step (t : SimulationTime) : SimulationTime :=
  ⟨t.fixedTimeStep, t.accumulatedTime + t.fixedTimeStep, t.stepCount + 1⟩

/-- Embeds `SimulationTime::getTimeDelta`. -/
def SimulationTime.getTimeDelta (t : SimulationTime) : ℝ := t.fixedTimeStep

/-- Embeds `SimulationTime::reset`. -/
def SimulationTime.reset (t : SimulationTime) : SimulationTime :=
  ⟨t.fixedTimeStep, 0, 0⟩

/-- Embeds `SimulationTime::isValid`: positive finite step (finiteness is
vacuous over exact reals). -/
def SimulationTime.isValid (t : SimulationTime) : Prop := 0 < t.fixedTimeStep

/-! ## Simulation state (src/core/material/MaterialGrid.h,
src/core/sim/SimulationState.h) -/

/-- Interface view of the opaque `cnc::MaterialGrid` collaborator: the engine
base and state consult only validity, the remaining volume, and `clone`
(which by the deep-copy contract yields an equal, independently owned value;
in a value model cloning is the identity). -/
structure MaterialGrid where
  valid : Bool
  remainingVolume : ℝ

/-- Embeds `MaterialGrid::isValid`. -/
def MaterialGrid.isValid (g : MaterialGrid) : Bool := g.valid

/-- Embeds `MaterialGrid::clone` (deep copy of a value). -/
def MaterialGrid.clone (g : MaterialGrid) : MaterialGrid := g

/-- Embeds `cnc::SimulationState`: exclusively owned (possibly null) material
grid, tool pose, six axis positions, step counter, time accumulator and
deterministic seed. -/
structure SimulationState where
  materialGrid : Option MaterialGrid
  toolPose : Transform
  machineAxes : AxisArray
  stepCount : ℕ
  timeAccumulator : ℝ
  deterministicSeed : ℕ

/-- The `SimulationState` constructor: counters zeroed, axes zeroed. -/
def SimulationState.make (materialGrid : Option MaterialGrid)
    (initialToolPose : Transform) : SimulationState :=
  ⟨materialGrid, initialToolPose, ⟨0, 0, 0, 0, 0, 0⟩, 0, 0, 0⟩

/-- Embeds `SimulationState::isValid`: a grid is present and reports itself
valid. -/
def SimulationState.isValid (s : SimulationState) : Bool :=
  match s.materialGrid with
  | none => false
  | some g => g.isValid

/-- Embeds `SimulationState::incrementStepCount`. -/
def SimulationState.incrementStepCount (s : SimulationState) : SimulationState :=
  { s with stepCount := s.stepCount + 1 }

/-- Embeds `SimulationState::addTime`. -/
def SimulationState.addTime (s : SimulationState) (deltaTime : ℝ) : SimulationState :=
  { s with timeAccumulator := s.timeAccumulator + deltaTime }

/-- Embeds `SimulationState::clone` / the deep-copy copy constructor: in the
value model the copy equals the original (the grid is cloned, which is the
identity on values). -/
def SimulationState.clone (s : SimulationState) : SimulationState :=
  { s with materialGrid := s.materialGrid.map MaterialGrid.clone }

/-! ## Engine base (src/core/sim/ISimulationEngine.h,
src/core/sim/SimulationEngineBase.h)

The repository contains no concrete engine: `doStep` is pure virtual, while
`doInitialize` and `doReset` have defaulted no-op implementations. The hooks
are therefore modelled as an explicit record of pure functions (a derived
class), with the defaults below; the base-class wrappers are embedded over
them. C++ mutates `state` by reference and returns the result; the model
returns the result together with the updated state and engine. -/

/-- The virtual hook functions a derived engine supplies. -/
structure EngineHooks where
  doInitialize : SimulationState → Error × SimulationState
  doStep : SimulationState → ToolSweep → StepResult × SimulationState
  doReset : SimulationState → Error × SimulationState

/-- The base class's default `doInitialize`: no-op success. -/
def defaultDoInitialize : SimulationState → Error × SimulationState :=
  fun s => (Error.success, s)

/-- The base class's default `doReset`: no-op success. -/
def defaultDoReset : SimulationState → Error × SimulationState :=
  fun s => (Error.success, s)

/-- The base class's own data: engine type tag, time manager, initialized
flag. -/
structure EngineState where
  engineType : String
  time : SimulationTime
  initialized : Bool

/-- The `SimulationEngineBase` constructor. -/
noncomputable def SimulationEngineBase.make (engineType : String)
    (fixedTimeStep : ℝ) : EngineState :=
  ⟨engineType, SimulationTime.make fixedTimeStep, false⟩

/-- Embeds `SimulationEngineBase::initialize`: an invalid state fails with a
non-recoverable `SimulationInvalidState` error; on hook success the engine
becomes initialized and its internal time is reset. -/
def SimulationEngineBase.initialize (hooks : EngineHooks) (e : EngineState)
    (s : SimulationState) : Error × SimulationState × EngineState :=
  if !s.isValid then
    (Error.make ErrorCode.SimulationInvalidState "Simulation state is invalid" false,
     s, e)
  else if (hooks.doInitialize s).1.isSuccess then
    ((hooks.doInitialize s).1, (hooks.doInitialize s).2,
     ⟨e.engineType, e.time.reset, true⟩)
  else ((hooks.doInitialize s).1, (hooks.doInitialize s).2, e)

/-- Embeds `SimulationEngineBase::step`: an uninitialized engine fails fast
with a `SimulationInvalidState` error constructed with `recoverable = true`
and touches nothing; an invalid state fails with a non-recoverable error;
otherwise the state's step counter is incremented, the hook runs, the
state's time accumulator advances by the fixed delta, and the engine's time
advances. -/
def SimulationEngineBase.step (hooks : EngineHooks) (e : EngineState)
    (s : SimulationState) (sweep : ToolSweep) :
    StepResult × SimulationState × EngineState :=
  if !e.initialized then
    (StepResult.makeError ErrorCode.SimulationInvalidState
      "Engine not initialized. Call initialize() first." true, s, e)
  else if !s.isValid then
    (StepResult.makeError ErrorCode.SimulationInvalidState
      "Simulation state is invalid" false, s, e)
  else
    ((hooks.doStep s.incrementStepCount sweep).1,
     (hooks.doStep s.incrementStepCount sweep).2.addTime e.time.getTimeDelta,
     ⟨e.engineType, e.time.step, e.initialized⟩)

/-- Embeds `SimulationEngineBase::reset`: runs the hook; on success the
engine transitions back to Uninitialized and its internal time is cleared.
The state itself is whatever the hook produced (the default hook leaves it
unchanged). -/
def SimulationEngineBase.reset (hooks : EngineHooks) (e : EngineState)
    (s : SimulationState) : Error × SimulationState × EngineState :=
  if (hooks.doReset s).1.isSuccess then
    ((hooks.doReset s).1, (hooks.doReset s).2, ⟨e.engineType, e.time.reset, false⟩)
  else ((hooks.doReset s).1, (hooks.doReset s).2, e)

/-- Iterated stepping: feed a list of sweeps through `step`, collecting the
`StepResult` sequence and the final state and engine. This is the
`(state, sweep)` input-sequence form of the determinism contract. -/
def SimulationEngineBase.runSteps (hooks : EngineHooks) :
    EngineState → SimulationState → List ToolSweep →
    List StepResult × SimulationState × EngineState
  | e, s, [] => ([], s, e)
  | e, s, sweep :: rest =>
    ((SimulationEngineBase.step hooks e s sweep).1 ::
      (SimulationEngineBase.runSteps hooks
        (SimulationEngineBase.step hooks e s sweep).2.2
        (SimulationEngineBase.step hooks e s sweep).2.1 rest).1,
     (SimulationEngineBase.runSteps hooks
       (SimulationEngineBase.step hooks e s sweep).2.2
       (SimulationEngineBase.step hooks e s sweep).2.1 rest).2)

/-! ## Step controller (src/core/sim/StepController.h)

The controller owns its engine; the null-engine guard paths of the source
are not reachable in this value model (the engine record is always present),
and the claims modelled here concern the non-null paths. -/

/-- Embeds `cnc::StepController`: the owned engine (hooks plus base state)
and the cached last result. -/
structure StepController where
  hooks : EngineHooks
  engine : EngineState
  lastResult : StepResult

/-- Embeds `StepController::stepOnce`: an invalid state fails with a cached
non-recoverable error; otherwise the engine steps, the result is cached, and
the return value is the result's `isSuccess()`. -/
def StepController.stepOnce (c : StepController) (s : SimulationState)
    (sweep : ToolSweep) : Bool × StepController × SimulationState :=
  if !s.isValid then
    let r := StepResult.makeError ErrorCode.SimulationInvalidState
      "Simulation state is invalid" false
    (false, { c with lastResult := r }, s)
  else
    ((SimulationEngineBase.step c.hooks c.engine s sweep).1.isSuccess,
     ⟨c.hooks, (SimulationEngineBase.step c.hooks c.engine s sweep).2.2,
      (SimulationEngineBase.step c.hooks c.engine s sweep).1⟩,
     (SimulationEngineBase.step c.hooks c.engine s sweep).2.1)

/-- The loop body of `StepController::stepN`: step up to `n` times, stopping
at the first failed `stepOnce`, counting the successful steps. -/
def StepController.stepNAux : StepController → SimulationState → ToolSweep → ℕ →
    ℕ × StepController × SimulationState
  | c, s, _, 0 => (0, c, s)
  | c, s, sweep, n + 1 =>
    if (c.stepOnce s sweep).1 then
      ((StepController.stepNAux (c.stepOnce s sweep).2.1 (c.stepOnce s sweep).2.2
          sweep n).1 + 1,
       (StepController.stepNAux (c.stepOnce s sweep).2.1 (c.stepOnce s sweep).2.2
          sweep n).2)
    else (0, (c.stepOnce s sweep).2)

/-- Embeds `StepController::stepN` (same sweep repeated): returns 0 for an
invalid state, otherwise the number of steps executed before the first
failure. -/
def StepController.stepN (c : StepController) (s : SimulationState)
    (sweep : ToolSweep) (numSteps : ℕ) : ℕ × StepController × SimulationState :=
  if !s.isValid then (0, c, s)
  else StepController.stepNAux c s sweep numSteps

/-- The trace of results `stepOnce` caches over `n` iterations (driving on
past failures); `stepN` executes exactly the longest successful prefix of
this trace. -/
def StepController.resultTrace : StepController → SimulationState → ToolSweep → ℕ →
    List StepResult
  | _, _, _, 0 => []
  | c, s, sweep, n + 1 =>
    (c.stepOnce s sweep).2.1.lastResult ::
      StepController.resultTrace (c.stepOnce s sweep).2.1
        (c.stepOnce s sweep).2.2 sweep n

/-! ### Simulation test fixtures -/

/-- A valid concrete material grid. -/
def testGrid : MaterialGrid := ⟨true, 1000⟩

/-- A valid concrete simulation state over `testGrid`. -/
def testState : SimulationState :=
  ⟨some testGrid, Transform.identity, ⟨0, 0, 0, 0, 0, 0⟩, 0, 0, 0⟩

/-- A concrete tool sweep between identity poses. -/
def testSweep : ToolSweep := ⟨Transform.identity, Transform.identity, 0⟩

/-- A concrete derived engine that removes nothing: `doStep` returns success
and leaves the state as given (the base wrapper still does the counter and
time bookkeeping); the other hooks are the base defaults. -/
def noRemovalHooks : EngineHooks :=
  ⟨defaultDoInitialize, fun s _ => (StepResult.success 0, s), defaultDoReset⟩

/-- A concrete derived engine whose `doStep` always reports a collision. -/
def collisionHooks : EngineHooks :=
  ⟨defaultDoInitialize, fun s _ => (StepResult.collision "Collision detected", s),
   defaultDoReset⟩

/-- An initialized engine with a fixed time step of 1 second. -/
def testEngine : EngineState := ⟨"test", ⟨1, 0, 0⟩, true⟩

/-- The same engine before initialization. -/
def testEngineUninit : EngineState := ⟨"test", ⟨1, 0, 0⟩, false⟩

/-! ### C1: determinism of stepping -/

/-- C1. Determinism of stepping: two runs of the same engine (same hooks)
with identical deterministic seeds, started from equal simulation states and
equal engine states and fed the identical sequence of sweeps, produce
identical `StepResult` sequences and identical resulting states and engines.
In this pure embedding the step flow consults nothing outside its inputs, so
the runs coincide definitionally. -/
theorem step_determinism (hooks : EngineHooks) (e1 e2 : EngineState)
    (s1 s2 : SimulationState) (sweeps1 sweeps2 : List ToolSweep)
    (hseed : s1.deterministicSeed = s2.deterministicSeed)
    (he : e1 = e2) (hs : s1 = s2) (hsweeps : sweeps1 = sweeps2) :
    SimulationEngineBase.runSteps hooks e1 s1 sweeps1
      = SimulationEngineBase.runSteps hooks e2 s2 sweeps2 := by
  subst he; subst hs; subst hsweeps; rfl

/-- Witness for C1: two identical concrete two-step runs coincide. -/
theorem step_determinism_witness :
    testState.deterministicSeed = testState.deterministicSeed ∧
    SimulationEngineBase.runSteps noRemovalHooks testEngine testState
        [testSweep, testSweep]
      = SimulationEngineBase.runSteps noRemovalHooks testEngine testState
        [testSweep, testSweep] :=
  ⟨rfl, step_determinism noRemovalHooks testEngine testEngine testState testState
    [testSweep, testSweep] [testSweep, testSweep] rfl rfl rfl rfl⟩

/-! ### C2: stepping while Uninitialized -/

/-- C2 (amended). If `step` is called while the engine is Uninitialized, it
returns a `StepResult` carrying a structured `SimulationInvalidState` error
— which the source constructs with `recoverable = true`, i.e. retryable, not
non-retryable — and the state is returned unchanged (in particular the step
counter is not incremented) and the engine is untouched. -/
theorem step_uninitialized_amended (hooks : EngineHooks) (e : EngineState)
    (s : SimulationState) (sweep : ToolSweep) (h : e.initialized = false) :
    (SimulationEngineBase.step hooks e s sweep).1.error.code
        = ErrorCode.SimulationInvalidState ∧
    (SimulationEngineBase.step hooks e s sweep).1.hasError = true ∧
    (SimulationEngineBase.step hooks e s sweep).1.error.recoverable = true ∧
    (SimulationEngineBase.step hooks e s sweep).2.1 = s ∧
    (SimulationEngineBase.step hooks e s sweep).2.1.stepCount = s.stepCount ∧
    (SimulationEngineBase.step hooks e s sweep).2.2 = e := by
  unfold SimulationEngineBase.step
  simp only [h, Bool.not_false, if_true]
  refine ⟨?_, ?_, ?_, ?_, ?_, ?_⟩ <;> first | rfl | trivial

/-- Witness for C2 (amended) at the concrete uninitialized engine. -/
theorem step_uninitialized_amended_witness :
    testEngineUninit.initialized = false ∧
    (SimulationEngineBase.step noRemovalHooks testEngineUninit testState
      testSweep).2.1.stepCount = testState.stepCount :=
  ⟨rfl, (step_uninitialized_amended noRemovalHooks testEngineUninit testState
    testSweep rfl).2.2.2.2.1⟩

/-- C2 counterexample: at a concrete uninitialized engine the structured
`SimulationInvalidState` error returned by `step` has its recoverable flag
set to `true` — the error is retryable, refuting the claim that it is
non-retryable. (The state is still left unchanged.) -/
theorem step_uninitialized_counterexample :
    (SimulationEngineBase.step noRemovalHooks testEngineUninit testState
        testSweep).1.error.code = ErrorCode.SimulationInvalidState ∧
    (SimulationEngineBase.step noRemovalHooks testEngineUninit testState
        testSweep).1.error.recoverable = true ∧
    (SimulationEngineBase.step noRemovalHooks testEngineUninit testState
        testSweep).1.error.recoverable ≠ false ∧
    (SimulationEngineBase.step noRemovalHooks testEngineUninit testState
        testSweep).2.1 = testState := by
  refine ⟨rfl, rfl, ?_, rfl⟩
  intro hcontra
  exact Bool.noConfusion hcontra

/-! ### C3: reset -/

/-- C3 (amended). A successful `reset` transitions the engine back to
Uninitialized and clears the engine's internal time accumulator and step
count; the simulation state itself is whatever the engine-specific `doReset`
hook produced — with the default no-op hook it is returned unchanged, so its
step counter and time accumulator keep their pre-reset values. -/
theorem reset_amended (hooks : EngineHooks) (e : EngineState)
    (s : SimulationState)
    (hsucc : (SimulationEngineBase.reset hooks e s).1.isSuccess = true) :
    (SimulationEngineBase.reset hooks e s).2.2.initialized = false ∧
    (SimulationEngineBase.reset hooks e s).2.2.time.accumulatedTime = 0 ∧
    (SimulationEngineBase.reset hooks e s).2.2.time.stepCount = 0 ∧
    (hooks.doReset = defaultDoReset →
      (SimulationEngineBase.reset hooks e s).2.1 = s) := by
  by_cases hb : (hooks.doReset s).1.isSuccess
  · unfold SimulationEngineBase.reset
    rw [if_pos hb]
    refine ⟨rfl, rfl, rfl, ?_⟩
    intro hdef
    show (hooks.doReset s).2 = s
    rw [hdef]
    rfl
  · exfalso
    unfold SimulationEngineBase.reset at hsucc
    rw [if_neg hb] at hsucc
    exact hb hsucc

/-- Witness for C3 (amended) at the concrete engine with default hooks. -/
theorem reset_amended_witness :
    (SimulationEngineBase.reset noRemovalHooks testEngine testState).1.isSuccess
        = true ∧
    (SimulationEngineBase.reset noRemovalHooks testEngine
        testState).2.2.initialized = false ∧
    (SimulationEngineBase.reset noRemovalHooks testEngine testState).2.1
        = testState :=
  ⟨rfl,
   (reset_amended noRemovalHooks testEngine testState rfl).1,
   (reset_amended noRemovalHooks testEngine testState rfl).2.2.2 rfl⟩

/-- The concrete C3 run: initialize, one successful step, then reset. -/
def c3AfterInit : Error × SimulationState × EngineState :=
  SimulationEngineBase.initialize noRemovalHooks testEngineUninit testState

/-- One step after initialization. -/
def c3AfterStep : StepResult × SimulationState × EngineState :=
  SimulationEngineBase.step noRemovalHooks c3AfterInit.2.2 c3AfterInit.2.1 testSweep

/-- The reset after the step. -/
def c3AfterReset : Error × SimulationState × EngineState :=
  SimulationEngineBase.reset noRemovalHooks c3AfterStep.2.2 c3AfterStep.2.1

/-- C3 counterexample: in the concrete run initialize → step → reset (default
`doReset` hook, as provided by the base class), the reset succeeds and the
engine transitions back to Uninitialized, but the state's step counter stays
at 1 and its time accumulator stays at 1 second — neither returns to zero,
refuting the claim as stated. -/
theorem reset_counterexample :
    c3AfterInit.1.isSuccess = true ∧
    c3AfterStep.1.isSuccess = true ∧
    c3AfterStep.2.1.stepCount = 1 ∧
    c3AfterReset.1.isSuccess = true ∧
    c3AfterReset.2.2.initialized = false ∧
    c3AfterReset.2.2.time.accumulatedTime = 0 ∧
    c3AfterReset.2.1.stepCount = 1 ∧
    c3AfterReset.2.1.stepCount ≠ 0 ∧
    c3AfterReset.2.1.timeAccumulator ≠ 0 := by
  refine ⟨rfl, rfl, rfl, rfl, rfl, rfl, rfl, ?_, ?_⟩
  · intro hcontra
    exact Nat.noConfusion hcontra
  · show (0 : ℝ) + 1 ≠ 0
    norm_num

/-! ### C10: collisions fail steps and stop stepN -/

/-- After `stepOnce`, the returned success flag agrees with the success of
the cached last result. -/
theorem StepController.stepOnce_fst_eq (c : StepController) (s : SimulationState)
    (sweep : ToolSweep) :
    (c.stepOnce s sweep).1 = (c.stepOnce s sweep).2.1.lastResult.isSuccess := by
  unfold StepController.stepOnce
  by_cases hv : s.isValid
  · rw [hv]
    rfl
  · rw [Bool.not_eq_true] at hv
    rw [hv]
    rfl

/-- The length of the result trace is the number of iterations. -/
theorem StepController.resultTrace_length (c : StepController) (s : SimulationState)
    (sweep : ToolSweep) : ∀ n : ℕ, (c.resultTrace s sweep n).length = n := by
  intro n
  induction n generalizing c s with
  | zero => rfl
  | succ n ih =>
    show (_ :: _).length = n + 1
    rw [List.length_cons, ih]

/-- The loop of `stepN` executes exactly the longest successful prefix of
the result trace. -/
theorem StepController.stepNAux_eq_takeWhile :
    ∀ (n : ℕ) (c : StepController) (s : SimulationState) (sweep : ToolSweep),
      (StepController.stepNAux c s sweep n).1
        = ((c.resultTrace s sweep n).takeWhile (fun r => r.isSuccess)).length
  | 0, _, _, _ => rfl
  | n + 1, c, s, sweep => by
    rw [show StepController.resultTrace c s sweep (n + 1)
        = (c.stepOnce s sweep).2.1.lastResult ::
            StepController.resultTrace (c.stepOnce s sweep).2.1
              (c.stepOnce s sweep).2.2 sweep n from rfl]
    by_cases hr : (c.stepOnce s sweep).1
    · have hlast : (c.stepOnce s sweep).2.1.lastResult.isSuccess = true := by
        rw [← StepController.stepOnce_fst_eq]; exact hr
      rw [List.takeWhile_cons_of_pos (by simpa using hlast), List.length_cons]
      show (StepController.stepNAux c s sweep (n + 1)).1 = _ + 1
      unfold StepController.stepNAux
      rw [if_pos hr]
      rw [StepController.stepNAux_eq_takeWhile n]
    · have hlast : (c.stepOnce s sweep).2.1.lastResult.isSuccess = false := by
        rw [← StepController.stepOnce_fst_eq]
        exact Bool.not_eq_true _ ▸ (Bool.of_not_eq_true hr)
      rw [List.takeWhile_cons_of_neg (by simp [hlast])]
      show (StepController.stepNAux c s sweep (n + 1)).1 = 0
      unfold StepController.stepNAux
      rw [if_neg hr]

/-- The full `stepN` equals the length of the longest successful prefix of
the result trace (the invalid-state early exit agrees with the failing first
trace entry). -/
theorem StepController.stepN_eq_takeWhile (c : StepController) (s : SimulationState)
    (sweep : ToolSweep) (n : ℕ) :
    (c.stepN s sweep n).1
      = ((c.resultTrace s sweep n).takeWhile (fun r => r.isSuccess)).length := by
  unfold StepController.stepN
  by_cases hv : s.isValid
  · rw [hv]
    show (StepController.stepNAux c s sweep n).1 = _
    exact StepController.stepNAux_eq_takeWhile n c s sweep
  · rw [Bool.not_eq_true] at hv
    rw [hv]
    cases n with
    | zero => rfl
    | succ n =>
      have hfail : (c.stepOnce s sweep).2.1.lastResult.isSuccess = false := by
        rw [← StepController.stepOnce_fst_eq]
        unfold StepController.stepOnce
        rw [hv]
        rfl
      rw [show StepController.resultTrace c s sweep (n + 1)
          = (c.stepOnce s sweep).2.1.lastResult ::
              StepController.resultTrace (c.stepOnce s sweep).2.1
                (c.stepOnce s sweep).2.2 sweep n from rfl]
      rw [List.takeWhile_cons_of_neg (by simp [hfail])]
      rfl

/-- If the first `j` entries of a result list succeed and the `j`-th fails,
the successful prefix has length exactly `j`. -/
theorem takeWhile_success_length :
    ∀ (l : List StepResult) (j : ℕ) (hj : j < l.length),
      (∀ (i : ℕ) (hi : i < j), (l.get ⟨i, Nat.lt_trans hi hj⟩).isSuccess = true) →
      (l.get ⟨j, hj⟩).isSuccess = false →
      (l.takeWhile (fun r => r.isSuccess)).length = j
  | [], j, hj, _, _ => absurd hj (by simp)
  | r :: rest, 0, hj, _, hfail => by
    rw [List.takeWhile_cons_of_neg (by simpa using hfail)]
    rfl
  | r :: rest, j + 1, hj, hsucc, hfail => by
    have hhead : r.isSuccess = true := by
      have := hsucc 0 (Nat.succ_pos j)
      simpa using this
    rw [List.takeWhile_cons_of_pos (by simpa using hhead), List.length_cons]
    have hrec := takeWhile_success_length rest j (by simpa using hj)
      (fun i hi => by
        have := hsucc (i + 1) (by omega)
        simpa using this)
      (by simpa using hfail)
    rw [hrec]

/-- C10. A `StepResult` with the collision flag set is never a success,
regardless of its error field; `stepOnce` therefore reports failure whenever
the engine step detects a collision; `stepN` executes exactly the longest
successful prefix of its step-result trace; and when the first `j` trace
entries succeed and the `j`-th reports a collision, `stepN` returns exactly
`j` — the count of steps executed before the collision. -/
theorem collision_stops_stepping :
    (∀ r : StepResult, r.collisionDetected = true → r.isSuccess = false) ∧
    (∀ (c : StepController) (s : SimulationState) (sweep : ToolSweep),
      s.isValid = true →
      (SimulationEngineBase.step c.hooks c.engine s sweep).1.collisionDetected
        = true →
      (c.stepOnce s sweep).1 = false) ∧
    (∀ (c : StepController) (s : SimulationState) (sweep : ToolSweep) (n : ℕ),
      (c.stepN s sweep n).1
        = ((c.resultTrace s sweep n).takeWhile (fun r => r.isSuccess)).length) ∧
    (∀ (c : StepController) (s : SimulationState) (sweep : ToolSweep) (n : ℕ)
      (j : ℕ) (hj : j < (c.resultTrace s sweep n).length),
      (∀ (i : ℕ) (hi : i < j),
        ((c.resultTrace s sweep n).get ⟨i, Nat.lt_trans hi hj⟩).isSuccess = true) →
      ((c.resultTrace s sweep n).get ⟨j, hj⟩).collisionDetected = true →
      (c.stepN s sweep n).1 = j) := by
  have hcoll : ∀ r : StepResult, r.collisionDetected = true → r.isSuccess = false := by
    intro r h
    unfold StepResult.isSuccess
    rw [h]
    simp
  refine ⟨hcoll, ?_, StepController.stepN_eq_takeWhile, ?_⟩
  · intro c s sweep hv hcollide
    unfold StepController.stepOnce
    rw [hv]
    show (SimulationEngineBase.step c.hooks c.engine s sweep).1.isSuccess = false
    exact hcoll _ hcollide
  · intro c s sweep n j hj hsucc hcollide
    rw [StepController.stepN_eq_takeWhile]
    exact takeWhile_success_length _ j hj hsucc (hcoll _ hcollide)

/-- Witness for C10 at a concrete collision engine: the collision result is
not a success, `stepOnce` reports failure, and a five-step `stepN` run whose
every step collides executes zero steps (the trace's first entry already
reports the collision). -/
theorem collision_stops_stepping_witness :
    (StepResult.collision "Collision detected").isSuccess = false ∧
    ((StepController.mk collisionHooks testEngine StepResult.default).stepOnce
      testState testSweep).1 = false ∧
    ((StepController.mk collisionHooks testEngine StepResult.default).stepN
      testState testSweep 5).1 = 0 := by
  refine ⟨collision_stops_stepping.1 _ rfl, collision_stops_stepping.2.1
    (StepController.mk collisionHooks testEngine StepResult.default)
    testState testSweep rfl rfl, ?_⟩
  have h := collision_stops_stepping.2.2.2
    (StepController.mk collisionHooks testEngine StepResult.default)
    testState testSweep 5 0
    (by rw [StepController.resultTrace_length]; norm_num)
    (fun i hi => absurd hi (Nat.not_lt_zero i))
    rfl
  exact h

end Cnc
